import Mathlib

/-!
# Verification of the sacloud provisioning tool's core algorithms

This development shallowly embeds the core decision logic of the tool:
the generic resource client (`search`, `search_single_resource`,
`request_api_for_resource` response-envelope checking, the
`wait_resource_status` polling state machine, `fetch_until_not_found`),
the remote completion protocol (`ServiceScript::wait_for_done`), and the
two workflows (`UpdateCmd::run` with its Drop-based firewall guard, and
`CleanCmd::run`).

Network calls, the remote host and the local filesystem are modelled by
oracles: functions or records supplying the observation that each call
site of the Rust source would receive.  Polling loops are embedded as
fuel-indexed recursive functions; `none` means the loop was still
running when the fuel bound was reached, so every theorem about a loop
result quantifies over (or fixes) sufficient fuel.  Rust `panic!`
unwinding is modelled as an explicit third outcome so that `Drop`-guard
behaviour on abrupt termination is expressible.
-/

/-! ## A minimal JSON value model (serde_json::Value) -/

/-- JSON values as the provider returns them.  Numbers are modelled as
naturals: the source only ever reads numeric fields through `as_u64`,
and any non-`u64` number behaves like the `none` case of `asU64`. -/
inductive JVal where
  | null
  | jbool (b : Bool)
  | jnum (n : Nat)
  | jstr (s : String)
  | jarr (elems : List JVal)
  | jobj (fields : List (String × JVal))
deriving Inhabited

/-- `Value::get(key)`: `some` field value on objects, `none` otherwise. -/
def JVal.get (v : JVal) (key : String) : Option JVal :=
  match v with
  | .jobj fields => fields.lookup key
  | _ => none

/-- `Value::as_bool`. -/
def JVal.asBool : JVal → Option Bool
  | .jbool b => some b
  | _ => none

/-- `Value::as_str`. -/
def JVal.asStr : JVal → Option String
  | .jstr s => some s
  | _ => none

/-- `Value::as_u64`. -/
def JVal.asU64 : JVal → Option Nat
  | .jnum n => some n
  | _ => none

/-- `Value::as_array`. -/
def JVal.asArray : JVal → Option (List JVal)
  | .jarr xs => some xs
  | _ => none

/-- `Value::is_object`. -/
def JVal.isObject : JVal → Bool
  | .jobj _ => true
  | _ => false

/-- `value[key]` (serde_json `Index`): the field when present on an
object, JSON `null` otherwise. -/
def JVal.index (v : JVal) (key : String) : JVal :=
  match v.get key with
  | some w => w
  | none => .null

/-! ## The api::Error variants the embedded code can produce

Only the discriminants (and the payloads the claims talk about) are
kept; diagnostic payloads such as the request path and body are
omitted. -/

inductive ApiErr where
  | tooManyResources (resourceName : String) (n : Nat)
  | resourceApiInvalidStatusDataType (marker : JVal) (value : JVal)
  | resourceApiInvalidStatusFalse (value : JVal)
  | resourceApiInvalidResourceObject
  | resourceApiWaitStatusNotFound
  | resourceApiWaitStatusFailed
  | resourceApiWaitStatusUnknown (status : String)
  | searchApiInvalidTotalCount
  | searchApiInvalidIndexFrom (responseFrom : Option Nat)
  | searchApiInvalidResourceCount
  | searchApiInvalidResourceArray (value : JVal)
  | apiNotFound
  | transportOrHttpError

/-! ## request_api_for_resource (api.rs lines 1785-1821)

`request_api` itself (transport, HTTP status taxonomy) is out of the
embedding: the envelope checks below run only on a value that came back
with one of the accepted 2xx statuses, which is exactly the situation
the corresponding claim describes.  The two success markers are checked
exactly as in the source. -/

/-- The `Success` half of the marker check (the second `if let` of the
source function). -/
def checkSuccessMarker (value : JVal) : Except ApiErr Unit :=
  match value.get "Success" with
  | some successStatus =>
    match successStatus.asStr with
    | some s =>
      if s != "Accepted" then .error (.resourceApiInvalidStatusFalse value)
      else .ok ()
    | none =>
      match successStatus.asBool with
      | some b =>
        if !b then .error (.resourceApiInvalidStatusFalse value)
        else .ok ()
      | none => .error (.resourceApiInvalidStatusDataType successStatus value)
  | none => .ok ()

/-- The `is_ok` / `Success` marker checks of `request_api_for_resource`,
line for line from the source. -/
def checkStatusMarkers (value : JVal) : Except ApiErr Unit :=
  match value.get "is_ok" with
  | some isOkVal =>
    match isOkVal.asBool with
    | none => .error (.resourceApiInvalidStatusDataType isOkVal value)
    | some isOk =>
      if !isOk then .error (.resourceApiInvalidStatusFalse value)
      else checkSuccessMarker value
  | none => checkSuccessMarker value

/-- `request_api_for_resource`, after a successful `request_api`: check
the two markers, then extract the singular-key resource when a resource
name was supplied. -/
def requestApiForResource (value : JVal) (resourceName : Option String) :
    Except ApiErr JVal :=
  match checkStatusMarkers value with
  | .error e => .error e
  | .ok () =>
    match resourceName with
    | some name =>
      let resource := value.index name
      if !resource.isObject then .error .resourceApiInvalidResourceObject
      else .ok resource
    | none => .ok value

/-- What the specification calls a valid pair of markers: `is_ok`, when
present, is boolean `true`; `Success`, when present, is boolean `true`
or the literal string `"Accepted"`. -/
def markersOk (value : JVal) : Bool :=
  (match value.get "is_ok" with
   | some (.jbool true) => true
   | some _ => false
   | none => true) &&
  (match value.get "Success" with
   | some (.jbool true) => true
   | some (.jstr s) => s == "Accepted"
   | some _ => false
   | none => true)

/-- Recognises the two invalid-status error variants. -/
def isInvalidStatusErr : ApiErr → Bool
  | .resourceApiInvalidStatusDataType _ _ => true
  | .resourceApiInvalidStatusFalse _ => true
  | _ => false

lemma checkSuccessMarker_ok_iff (v : JVal) :
    (checkSuccessMarker v = .ok () ↔
      (match v.get "Success" with
       | some (.jbool true) => true
       | some (.jstr s) => s == "Accepted"
       | some _ => false
       | none => true) = true) ∧
    (∀ e, checkSuccessMarker v = .error e → isInvalidStatusErr e = true) := by
  unfold checkSuccessMarker
  rcases h2 : v.get "Success" with _ | m2
  · simp
  · rcases m2 with _ | b2 | n2 | s2 | a2 | o2 <;>
      simp only [JVal.asStr, JVal.asBool]
    · simp [isInvalidStatusErr]
    · cases b2 <;> simp [isInvalidStatusErr]
    · simp [isInvalidStatusErr]
    · by_cases hs : s2 = "Accepted" <;> simp [hs, isInvalidStatusErr]
    · simp [isInvalidStatusErr]
    · simp [isInvalidStatusErr]

lemma checkStatusMarkers_ok_iff (v : JVal) :
    (checkStatusMarkers v = .ok () ↔ markersOk v = true) ∧
    (∀ e, checkStatusMarkers v = .error e → isInvalidStatusErr e = true) := by
  unfold checkStatusMarkers markersOk
  rcases h1 : v.get "is_ok" with _ | m1
  · simpa using checkSuccessMarker_ok_iff v
  · rcases m1 with _ | b1 | n1 | s1 | a1 | o1 <;>
      simp only [JVal.asBool]
    · simp [isInvalidStatusErr]
    · cases b1
      · simp [isInvalidStatusErr]
      · simpa using checkSuccessMarker_ok_iff v
    · simp [isInvalidStatusErr]
    · simp [isInvalidStatusErr]
    · simp [isInvalidStatusErr]
    · simp [isInvalidStatusErr]

/-- C8: for every create/update/delete response envelope accepted at the
HTTP level, the call succeeds (returning the envelope itself, when no
resource extraction is requested) precisely when a present `is_ok`
marker is boolean `true` and a present `Success` marker is boolean
`true` or the literal string `"Accepted"`; any other marker value makes
the call fail with one of the two invalid-status errors; an envelope
lacking both markers is accepted. -/
theorem envelope_success_markers (v : JVal) :
    (requestApiForResource v none = .ok v ↔ markersOk v = true) ∧
    (∀ e, requestApiForResource v none = .error e →
      isInvalidStatusErr e = true) := by
  have h := checkStatusMarkers_ok_iff v
  unfold requestApiForResource
  rcases hc : checkStatusMarkers v with e | u
  · constructor
    · constructor
      · intro hx
        simp at hx
      · intro hm
        exact absurd hc (by simp [(h.1.2 hm : checkStatusMarkers v = .ok ())])
    · intro e2 he2
      simp at he2
      exact h.2 e2 (he2 ▸ hc)
  · cases u
    constructor
    · simp only []
      constructor
      · intro _
        exact h.1.1 hc
      · intro _
        trivial
    · intro e2 he2
      simp at he2

/-- Witness for C8 at a concrete envelope: `Success` holding the string
`"Rejected"` is an invalid-status failure. -/
theorem envelope_success_markers_witness :
    requestApiForResource (.jobj [("Success", .jstr "Rejected")]) none =
      .error (.resourceApiInvalidStatusFalse
        (.jobj [("Success", .jstr "Rejected")])) ∧
    isInvalidStatusErr (.resourceApiInvalidStatusFalse
      (.jobj [("Success", .jstr "Rejected")])) = true := by
  refine ⟨rfl, ?_⟩
  exact (envelope_success_markers (.jobj [("Success", .jstr "Rejected")])).2
    (.resourceApiInvalidStatusFalse (.jobj [("Success", .jstr "Rejected")])) rfl

/-! ## The status-wait state machine (api.rs lines 1650-1695)

`wait_resource_status` fetches the resource, extracts a status string
through the accessor, and classifies it against the failure, success and
working sets, sleeping 2 seconds between polls.  The oracle `fetches j`
is what the `j`-th fetch-plus-accessor pair observes: a fetch error, a
resource whose accessor finds no status, or a status string.  The fuel
argument bounds the number of polls modelled; `none` means the loop was
still polling.  On success the embedding returns the number of fetches
it performed (the Rust function returns `()`; the count is the
instrumentation the termination claim talks about). -/

inductive FetchOutcome where
  | fetchErr (e : ApiErr)
  | fetchOk (status : Option String)

/-- `wait_resource_status`, with the `j`-th iteration reading
`fetches j`.  The classification order (failure, success, unknown,
working) is the source's. -/
def waitResourceStatus (working success failed : List String)
    (fetches : Nat → FetchOutcome) : (fuel : Nat) → Option (Except ApiErr Nat)
  | 0 => none
  | fuel + 1 =>
    match fetches 0 with
    | .fetchErr e => some (.error e)
    | .fetchOk none => some (.error .resourceApiWaitStatusNotFound)
    | .fetchOk (some status) =>
      if failed.contains status then some (.error .resourceApiWaitStatusFailed)
      else if success.contains status then some (.ok 1)
      else if !(working.contains status) then
        some (.error (.resourceApiWaitStatusUnknown status))
      else
        (waitResourceStatus working success failed
          (fun j => fetches (j + 1)) fuel).map (Except.map (fun c => c + 1))

/-- `wait_resource_up`: working = cleaning, success = up, failed =
down. -/
def waitResourceUp (fetches : Nat → FetchOutcome) (fuel : Nat) :
    Option (Except ApiErr Nat) :=
  waitResourceStatus ["cleaning"] ["up"] ["down"] fetches fuel

/-- `wait_resource_down`: working = up or cleaning, success = down,
failed = nothing. -/
def waitResourceDown (fetches : Nat → FetchOutcome) (fuel : Nat) :
    Option (Except ApiErr Nat) :=
  waitResourceStatus ["up", "cleaning"] ["down"] [] fetches fuel

/-- `wait_resource_available`: working = uploading or migrating, success
= available, failed = failed. -/
def waitResourceAvailable (fetches : Nat → FetchOutcome) (fuel : Nat) :
    Option (Except ApiErr Nat) :=
  waitResourceStatus ["uploading", "migrating"] ["available"] ["failed"] fetches fuel

/-- Poll `j` observed a status in the working set (and in neither
terminal set). -/
def workingPoll (working success failed : List String)
    (fetches : Nat → FetchOutcome) (j : Nat) : Prop :=
  ∃ s, fetches j = .fetchOk (some s) ∧ working.contains s = true ∧
    success.contains s = false ∧ failed.contains s = false

lemma waitResourceStatus_success_after (working success failed : List String) :
    ∀ (n : Nat) (fetches : Nat → FetchOutcome) (fuel : Nat),
    (∀ j, j < n → workingPoll working success failed fetches j) →
    (∃ t, fetches n = .fetchOk (some t) ∧ success.contains t = true ∧
      failed.contains t = false) →
    n < fuel →
    waitResourceStatus working success failed fetches fuel =
      some (.ok (n + 1)) := by
  intro n
  induction n with
  | zero =>
    intro fetches fuel _ hterm hfuel
    obtain ⟨t, ht, hts, htf⟩ := hterm
    obtain ⟨fuel2, rfl⟩ : ∃ f, fuel = f + 1 := ⟨fuel - 1, by omega⟩
    simp at hts htf
    simp [waitResourceStatus, ht, htf, hts]
  | succ n ih =>
    intro fetches fuel hw hterm hfuel
    obtain ⟨fuel2, rfl⟩ : ∃ f, fuel = f + 1 := ⟨fuel - 1, by omega⟩
    obtain ⟨s, hs, hsw, hss, hsf⟩ := hw 0 (Nat.succ_pos n)
    simp only [waitResourceStatus, hs, hsf, hss, hsw, Bool.not_true,
      Bool.false_eq_true, if_false, Bool.true_eq_false]
    rw [ih (fun j => fetches (j + 1)) fuel2
      (fun j hj => by
        obtain ⟨u, hu⟩ := hw (j + 1) (by omega)
        exact ⟨u, hu⟩)
      (by
        obtain ⟨t, ht⟩ := hterm
        exact ⟨t, ht⟩)
      (by omega)]
    simp [Except.map]

lemma waitResourceStatus_error_after (working success failed : List String) :
    ∀ (n : Nat) (fetches : Nat → FetchOutcome) (fuel : Nat) (r : ApiErr),
    (∀ j, j < n → workingPoll working success failed fetches j) →
    (∃ t, fetches n = .fetchOk (some t) ∧
      ((failed.contains t = true ∧ r = .resourceApiWaitStatusFailed) ∨
       (failed.contains t = false ∧ success.contains t = false ∧
        working.contains t = false ∧ r = .resourceApiWaitStatusUnknown t))) →
    n < fuel →
    waitResourceStatus working success failed fetches fuel =
      some (.error r) := by
  intro n
  induction n with
  | zero =>
    intro fetches fuel r _ hterm hfuel
    obtain ⟨t, ht, hcase⟩ := hterm
    obtain ⟨fuel2, rfl⟩ : ∃ f, fuel = f + 1 := ⟨fuel - 1, by omega⟩
    rcases hcase with ⟨htf, rfl⟩ | ⟨htf, hts, htw, rfl⟩
    · simp at htf
      simp [waitResourceStatus, ht, htf]
    · simp at htf hts htw
      simp [waitResourceStatus, ht, htf, hts, htw]
  | succ n ih =>
    intro fetches fuel r hw hterm hfuel
    obtain ⟨fuel2, rfl⟩ : ∃ f, fuel = f + 1 := ⟨fuel - 1, by omega⟩
    obtain ⟨s, hs, hsw, hss, hsf⟩ := hw 0 (Nat.succ_pos n)
    simp only [waitResourceStatus, hs, hsf, hss, hsw, Bool.not_true,
      Bool.false_eq_true, if_false, Bool.true_eq_false]
    rw [ih (fun j => fetches (j + 1)) fuel2 r
      (fun j hj => by
        obtain ⟨u, hu⟩ := hw (j + 1) (by omega)
        exact ⟨u, hu⟩)
      (by
        obtain ⟨t, ht⟩ := hterm
        exact ⟨t, ht⟩)
      (by omega)]
    simp [Except.map]

/-- C3: the status-wait poll loop classifies each fetched status against
the three sets.  (1) After `n` working-status polls, a success-set
status makes the loop return success having performed exactly `n + 1`
fetches, for every sufficient fuel bound.  (2) A failure-set status
after `n` working polls yields the failure error.  (3) A status in none
of the three sets yields the unknown-status error immediately: the
result is fixed at that poll, as witnessed by its independence from
every later observation and from the fuel bound.  (4) The availability
instantiation uses working = uploading/migrating, success = available,
failed = failed; the power-up instantiation uses working = cleaning and
success = up. -/
theorem wait_status_state_machine :
    (∀ (working success failed : List String) (fetches : Nat → FetchOutcome)
      (n fuel : Nat),
      (∀ j, j < n → workingPoll working success failed fetches j) →
      (∃ t, fetches n = .fetchOk (some t) ∧ success.contains t = true ∧
        failed.contains t = false) →
      n < fuel →
      waitResourceStatus working success failed fetches fuel =
        some (.ok (n + 1))) ∧
    (∀ (working success failed : List String) (fetches : Nat → FetchOutcome)
      (n fuel : Nat) (t : String),
      (∀ j, j < n → workingPoll working success failed fetches j) →
      fetches n = .fetchOk (some t) → failed.contains t = true →
      n < fuel →
      waitResourceStatus working success failed fetches fuel =
        some (.error .resourceApiWaitStatusFailed)) ∧
    (∀ (working success failed : List String) (fetches : Nat → FetchOutcome)
      (n fuel : Nat) (t : String),
      (∀ j, j < n → workingPoll working success failed fetches j) →
      fetches n = .fetchOk (some t) → failed.contains t = false →
      success.contains t = false → working.contains t = false →
      n < fuel →
      ∀ (g : Nat → FetchOutcome) (fuel2 : Nat),
        (∀ j, j ≤ n → g j = fetches j) → n < fuel2 →
        waitResourceStatus working success failed g fuel2 =
          some (.error (.resourceApiWaitStatusUnknown t))) ∧
    (waitResourceAvailable =
      waitResourceStatus ["uploading", "migrating"] ["available"] ["failed"] ∧
     waitResourceUp = waitResourceStatus ["cleaning"] ["up"] ["down"]) := by
  refine ⟨?_, ?_, ?_, rfl, rfl⟩
  · intro working success failed fetches n fuel hw hterm hfuel
    exact waitResourceStatus_success_after working success failed n fetches fuel
      hw hterm hfuel
  · intro working success failed fetches n fuel t hw ht htf hfuel
    exact waitResourceStatus_error_after working success failed n fetches fuel
      .resourceApiWaitStatusFailed hw ⟨t, ht, .inl ⟨htf, rfl⟩⟩ hfuel
  · intro working success failed fetches n fuel t hw ht htf hts htw hfuel
      g fuel2 hg hfuel2
    refine waitResourceStatus_error_after working success failed n g fuel2
      (.resourceApiWaitStatusUnknown t) ?_ ?_ hfuel2
    · intro j hj
      obtain ⟨u, hu, hrest⟩ := hw j hj
      exact ⟨u, by rw [hg j (by omega)]; exact hu, hrest⟩
    · exact ⟨t, by rw [hg n (le_refl n)]; exact ht, .inr ⟨htf, hts, htw, rfl⟩⟩

/-- Witness for C3 at a concrete status sequence: two `migrating` polls
followed by `available` succeed after exactly three fetches under the
availability instantiation. -/
theorem wait_status_state_machine_witness :
    waitResourceStatus ["uploading", "migrating"] ["available"] ["failed"]
      (fun j => if j < 2 then .fetchOk (some "migrating")
        else .fetchOk (some "available")) 5 = some (.ok 3) := by
  refine wait_status_state_machine.1 ["uploading", "migrating"] ["available"]
    ["failed"] _ 2 5 ?_ ?_ (by omega)
  · intro j hj
    exact ⟨"migrating", by simp [hj], by decide, by decide, by decide⟩
  · exact ⟨"available", by simp, by decide, by decide⟩

/-! ## Remote completion protocol (service_script.rs lines 78-134)

`ServiceScript::wait_for_done` opens a session, then runs two polling
loops.  Each iteration makes a group of session calls: a process-table
lookup for `root-setup.zsh` and existence checks of the three sentinel
files.  A poll is modelled as either an SSH error (any call of the
group failing) or the observed tuple of booleans.  Wall-clock time is
abstracted by a function telling whether the `elapsed > bound` check of
iteration `i` fires (2 minutes for the start loop, 10 minutes for the
finish loop).  Fuel bounds the number of iterations modelled; `none`
means the loop was still polling. -/

structure RemoteObs where
  processExists : Bool
  startedFileExists : Bool
  finishedFileExists : Bool
  successFileExists : Bool

inductive ObsRes where
  | sshErr
  | obs (o : RemoteObs)

/-- service_script::Error, without the render variant (rendering happens
only in the prepare phase). -/
inductive ScriptErr where
  | illegallyStopped
  | failed
  | timeoutToStart
  | timeoutToFinish
  | sshError
deriving DecidableEq, Repr

/-- The wait-for-start loop: poll until the process is seen or the
"started" sentinel has been removed; time out with `TimeoutToStart`. -/
def waitForStart (polls : Nat → ObsRes) (timedOut : Nat → Bool) :
    (fuel : Nat) → (i : Nat) → Option (Except ScriptErr Nat)
  | 0, _ => none
  | fuel + 1, i =>
    match polls i with
    | .sshErr => some (.error .sshError)
    | .obs o =>
      let existsProcess := o.processExists
      let started := !o.startedFileExists
      if existsProcess || started then some (.ok i)
      else if timedOut i then some (.error .timeoutToStart)
      else waitForStart polls timedOut fuel (i + 1)

/-- The wait-for-finish loop: poll until the process has disappeared
while the "started" sentinel is removed, then classify by the remaining
sentinels; time out with `TimeoutToFinish`. -/
def waitForFinish (polls : Nat → ObsRes) (timedOut : Nat → Bool) :
    (fuel : Nat) → (i : Nat) → Option (Except ScriptErr Unit)
  | 0, _ => none
  | fuel + 1, i =>
    match polls i with
    | .sshErr => some (.error .sshError)
    | .obs o =>
      let existsProcess := o.processExists
      let started := !o.startedFileExists
      let finished := !o.finishedFileExists
      let success := !o.successFileExists
      if !existsProcess && started then
        if !finished then some (.error .illegallyStopped)
        else if !success then some (.error .failed)
        else some (.ok ())
      else if timedOut i then some (.error .timeoutToFinish)
      else waitForFinish polls timedOut fuel (i + 1)

/-- `ServiceScript::wait_for_done`: connect, wait for start, then wait
for finish starting right after the poll that observed the start. -/
def waitForDone (connectOk : Bool) (polls : Nat → ObsRes)
    (startTimedOut finishTimedOut : Nat → Bool) (fuel : Nat) :
    Option (Except ScriptErr Unit) :=
  if !connectOk then some (.error .sshError)
  else
    match waitForStart polls startTimedOut fuel 0 with
    | none => none
    | some (.error e) => some (.error e)
    | some (.ok k) => waitForFinish polls finishTimedOut fuel (k + 1)

/-- A finish-loop poll on which the loop keeps going: the observation
succeeded, the disappearance branch did not fire (either the process is
still in the table or the "started" sentinel is still present), and the
finish timeout has not elapsed. -/
def nonTerminalFinishPoll (polls : Nat → ObsRes) (timedOut : Nat → Bool)
    (j : Nat) : Prop :=
  ∃ o, polls j = .obs o ∧
    (o.processExists = true ∨ o.startedFileExists = true) ∧
    timedOut j = false

lemma waitForFinish_propagate (polls : Nat → ObsRes) (timedOut : Nat → Bool) :
    ∀ (d i0 fuel : Nat) (r : Except ScriptErr Unit),
    (∀ j, i0 ≤ j → j < i0 + d → nonTerminalFinishPoll polls timedOut j) →
    (∀ f, waitForFinish polls timedOut (f + 1) (i0 + d) = some r) →
    d < fuel →
    waitForFinish polls timedOut fuel i0 = some r := by
  intro d
  induction d with
  | zero =>
    intro i0 fuel r _ hterm hfuel
    obtain ⟨f, rfl⟩ : ∃ f, fuel = f + 1 := ⟨fuel - 1, by omega⟩
    simpa using hterm f
  | succ d ih =>
    intro i0 fuel r hw hterm hfuel
    obtain ⟨f, rfl⟩ : ∃ f, fuel = f + 1 := ⟨fuel - 1, by omega⟩
    obtain ⟨o, hpo, hcase, hto⟩ := hw i0 (le_refl i0) (by omega)
    have hbranch : (!o.processExists && !o.startedFileExists) = false := by
      rcases hcase with h | h <;> simp [h]
    simp only [waitForFinish, hpo, Bool.not_not, hbranch, hto,
      Bool.false_eq_true, if_false]
    exact ih (i0 + 1) f r
      (fun j hj1 hj2 => hw j (by omega) (by omega))
      (by
        have : i0 + (d + 1) = i0 + 1 + d := by omega
        rw [this] at hterm
        exact hterm)
      (by omega)

/-- C2: in the wait-for-finish phase, at the first poll where the
process is absent from the process table and the script has started
(the "started" sentinel removed): a still-present "finished" sentinel
yields `IllegallyStopped`; otherwise a still-present "success" sentinel
yields `Failed`; otherwise success.  If the disappearance branch never
fires, the loop returns `TimeoutToFinish` at the first poll whose
10-minute bound has elapsed. -/
theorem remote_completion_classification :
    (∀ (polls : Nat → ObsRes) (timedOut : Nat → Bool) (i0 n fuel : Nat)
      (o : RemoteObs),
      (∀ j, i0 ≤ j → j < n → nonTerminalFinishPoll polls timedOut j) →
      i0 ≤ n → polls n = .obs o → o.processExists = false →
      o.startedFileExists = false → n - i0 < fuel →
      waitForFinish polls timedOut fuel i0 = some
        (if o.finishedFileExists then .error .illegallyStopped
         else if o.successFileExists then .error .failed
         else .ok ())) ∧
    (∀ (polls : Nat → ObsRes) (timedOut : Nat → Bool) (i0 n fuel : Nat)
      (o : RemoteObs),
      (∀ j, i0 ≤ j → j < n → nonTerminalFinishPoll polls timedOut j) →
      i0 ≤ n → polls n = .obs o →
      (o.processExists = true ∨ o.startedFileExists = true) →
      timedOut n = true → n - i0 < fuel →
      waitForFinish polls timedOut fuel i0 =
        some (.error .timeoutToFinish)) := by
  constructor
  · intro polls timedOut i0 n fuel o hw hle hpo hpe hsf hfuel
    have hn : n = i0 + (n - i0) := by omega
    refine waitForFinish_propagate polls timedOut (n - i0) i0 fuel _
      (fun j hj1 hj2 => hw j hj1 (by omega)) ?_ hfuel
    intro f
    rw [← hn]
    simp only [waitForFinish, hpo, hpe, hsf]
    cases hf : o.finishedFileExists <;> cases hs : o.successFileExists <;>
      simp [hf, hs]
  · intro polls timedOut i0 n fuel o hw hle hpo hcase hto hfuel
    have hn : n = i0 + (n - i0) := by omega
    have hbranch : (!o.processExists && !o.startedFileExists) = false := by
      rcases hcase with h | h <;> simp [h]
    refine waitForFinish_propagate polls timedOut (n - i0) i0 fuel _
      (fun j hj1 hj2 => hw j hj1 (by omega)) ?_ hfuel
    intro f
    rw [← hn]
    simp only [waitForFinish, hpo, Bool.not_not, hbranch, hto,
      Bool.false_eq_true, if_false]
    simp

/-- Witness for C2 at a concrete remote history: one poll with the
process running, then the process gone with "started" removed but the
"finished" sentinel still present, giving `IllegallyStopped`. -/
theorem remote_completion_classification_witness :
    waitForFinish
      (fun j => if j = 0 then .obs ⟨true, false, true, true⟩
        else .obs ⟨false, false, true, true⟩)
      (fun _ => false) 3 0 = some (.error .illegallyStopped) := by
  have h := remote_completion_classification.1
    (fun j => if j = 0 then .obs ⟨true, false, true, true⟩
      else .obs ⟨false, false, true, true⟩)
    (fun _ => false) 0 1 3 ⟨false, false, true, true⟩
    (fun j hj1 hj2 => by
      have : j = 0 := by omega
      exact ⟨⟨true, false, true, true⟩, by simp [this], by simp, rfl⟩)
    (by omega) (by simp) rfl rfl (by omega)
  simpa using h

/-! ## Paginated search (api.rs lines 1731-1783)

The provider is modelled as a function from the requested `From` offset
to the `request_api` outcome for that GET: a transport/HTTP error or the
response JSON.  (The `Count`/`Filter`/`Sort` query fields do not affect
the control flow being verified; each loop iteration requests `From =
index_from` and reads the echoed fields back from the response.)  Fuel
bounds the number of pages fetched; `none` means the loop was still
going. -/

def search (pages : Nat → Except ApiErr JVal) (resourceName : String) :
    (fuel : Nat) → (indexFrom : Nat) → (acc : List JVal) →
    Option (Except ApiErr (List JVal))
  | 0, _, _ => none
  | fuel + 1, indexFrom, acc =>
    match pages indexFrom with
    | .error e => some (.error e)
    | .ok value =>
      match (value.index "Total").asU64 with
      | none => some (.error .searchApiInvalidTotalCount)
      | some total =>
        match (value.index "From").asU64 with
        | none => some (.error (.searchApiInvalidIndexFrom none))
        | some responseIndexFrom =>
          if indexFrom ≠ responseIndexFrom then
            some (.error (.searchApiInvalidIndexFrom (some responseIndexFrom)))
          else
            match (value.index "Count").asU64 with
            | none => some (.error .searchApiInvalidResourceCount)
            | some count =>
              match (value.index resourceName).asArray with
              | none => some (.error (.searchApiInvalidResourceArray value))
              | some resources =>
                let acc2 := acc ++ resources
                if total ≤ indexFrom + count then some (.ok acc2)
                else search pages resourceName fuel (indexFrom + count) acc2

/-- `search_single_resource` (api.rs lines 1634-1648): more than one
result is a hard error, zero is `none`, exactly one is returned. -/
def searchSingleResource (pages : Nat → Except ApiErr JVal)
    (resourceName : String) (fuel : Nat) :
    Option (Except ApiErr (Option JVal)) :=
  match search pages resourceName fuel 0 [] with
  | none => none
  | some (.error e) => some (.error e)
  | some (.ok resourceValues) =>
    if 1 < resourceValues.length then
      some (.error (.tooManyResources resourceName resourceValues.length))
    else if resourceValues.length < 1 then some (.ok none)
    else some (.ok resourceValues.head?)

/-- `fetch_until_not_found` (api.rs lines 1697-1707): poll GET until the
provider answers not-found; any other error propagates; any successful
fetch keeps waiting. -/
def fetchUntilNotFound (fetches : Nat → Except ApiErr JVal) :
    (fuel : Nat) → (i : Nat) → Option (Except ApiErr Unit)
  | 0, _ => none
  | fuel + 1, i =>
    match fetches i with
    | .ok _ => fetchUntilNotFound fetches fuel (i + 1)
    | .error .apiNotFound => some (.ok ())
    | .error e => some (.error e)

/-- A well-formed run of search response pages starting at offset `off`:
each page echoes the requested offset, reports the common `total`, and
carries its array and count; every page but the last leaves
`off + count < total`, and the last reaches `total ≤ off + count`. -/
def goodPageRun (pages : Nat → Except ApiErr JVal) (resourceName : String)
    (total : Nat) : (off : Nat) → (specs : List (List JVal × Nat)) → Prop
  | _, [] => False
  | off, (arr, cnt) :: rest =>
    (∃ v, pages off = .ok v ∧ (v.index "Total").asU64 = some total ∧
      (v.index "From").asU64 = some off ∧ (v.index "Count").asU64 = some cnt ∧
      (v.index resourceName).asArray = some arr) ∧
    (match rest with
     | [] => total ≤ off + cnt
     | _ :: _ => off + cnt < total ∧
        goodPageRun pages resourceName total (off + cnt) rest)

lemma search_concat_of_goodPageRun (pages : Nat → Except ApiErr JVal)
    (resourceName : String) (total : Nat) :
    ∀ (specs : List (List JVal × Nat)) (off : Nat) (acc : List JVal)
      (fuel : Nat),
    goodPageRun pages resourceName total off specs →
    specs.length ≤ fuel →
    search pages resourceName fuel off acc =
      some (.ok (acc ++ (specs.map Prod.fst).flatten)) := by
  intro specs
  induction specs with
  | nil =>
    intro off acc fuel hgood _
    exact absurd hgood (by simp [goodPageRun])
  | cons spec rest ih =>
    intro off acc fuel hgood hfuel
    obtain ⟨arr, cnt⟩ := spec
    obtain ⟨⟨v, hv, hvt, hvf, hvc, hva⟩, hrest⟩ := hgood
    have hpos : 0 < fuel := by
      simp only [List.length_cons] at hfuel
      omega
    obtain ⟨fuel2, rfl⟩ : ∃ f, fuel = f + 1 := ⟨fuel - 1, by omega⟩
    simp only [search, hv, hvt, hvf, hvc, hva, ne_eq, not_true_eq_false,
      if_false, ite_not]
    cases rest with
    | nil =>
      have hlast : total ≤ off + cnt := hrest
      rw [if_pos hlast]
      simp
    | cons r rs =>
      have hlt : off + cnt < total := hrest.1
      have hgood2 := hrest.2
      rw [if_neg (by omega)]
      rw [ih (off + cnt) (acc ++ arr) fuel2 hgood2 (by simpa using hfuel)]
      simp

/-- C4: (1) for a well-formed sequence of pages — each echoing the
requested `From`, stopping as soon as `From + Count` reaches `Total` —
the paginated search concatenates all page arrays in provider order and
terminates; (2) a response whose echoed `From` differs from the request
fails with the index-from protocol error; (3)-(6) a missing or ill-typed
`Total`, `From`, `Count`, or plural-key array fails with the matching
descriptive error. -/
theorem search_pagination (pages : Nat → Except ApiErr JVal)
    (resourceName : String) :
    (∀ (total : Nat) (specs : List (List JVal × Nat)) (fuel : Nat),
      goodPageRun pages resourceName total 0 specs →
      specs.length ≤ fuel →
      search pages resourceName fuel 0 [] =
        some (.ok ((specs.map Prod.fst).flatten))) ∧
    (∀ (off fuel : Nat) (acc : List JVal) (v : JVal) (total rf : Nat),
      0 < fuel → pages off = .ok v →
      (v.index "Total").asU64 = some total →
      (v.index "From").asU64 = some rf → rf ≠ off →
      search pages resourceName fuel off acc =
        some (.error (.searchApiInvalidIndexFrom (some rf)))) ∧
    (∀ (off fuel : Nat) (acc : List JVal) (v : JVal),
      0 < fuel → pages off = .ok v →
      (v.index "Total").asU64 = none →
      search pages resourceName fuel off acc =
        some (.error .searchApiInvalidTotalCount)) ∧
    (∀ (off fuel : Nat) (acc : List JVal) (v : JVal) (total : Nat),
      0 < fuel → pages off = .ok v →
      (v.index "Total").asU64 = some total →
      (v.index "From").asU64 = none →
      search pages resourceName fuel off acc =
        some (.error (.searchApiInvalidIndexFrom none))) ∧
    (∀ (off fuel : Nat) (acc : List JVal) (v : JVal) (total : Nat),
      0 < fuel → pages off = .ok v →
      (v.index "Total").asU64 = some total →
      (v.index "From").asU64 = some off →
      (v.index "Count").asU64 = none →
      search pages resourceName fuel off acc =
        some (.error .searchApiInvalidResourceCount)) ∧
    (∀ (off fuel : Nat) (acc : List JVal) (v : JVal) (total cnt : Nat),
      0 < fuel → pages off = .ok v →
      (v.index "Total").asU64 = some total →
      (v.index "From").asU64 = some off →
      (v.index "Count").asU64 = some cnt →
      (v.index resourceName).asArray = none →
      search pages resourceName fuel off acc =
        some (.error (.searchApiInvalidResourceArray v))) := by
  refine ⟨?_, ?_, ?_, ?_, ?_, ?_⟩
  · intro total specs fuel hgood hfuel
    simpa using search_concat_of_goodPageRun pages resourceName total specs
      0 [] fuel hgood hfuel
  · intro off fuel acc v total rf hfuel hv hvt hvf hne
    obtain ⟨fuel2, rfl⟩ : ∃ f, fuel = f + 1 := ⟨fuel - 1, by omega⟩
    simp only [search, hv, hvt, hvf, ne_eq, ite_not]
    rw [if_neg (fun h => hne h.symm)]
  · intro off fuel acc v hfuel hv hvt
    obtain ⟨fuel2, rfl⟩ : ∃ f, fuel = f + 1 := ⟨fuel - 1, by omega⟩
    simp [search, hv, hvt]
  · intro off fuel acc v total hfuel hv hvt hvf
    obtain ⟨fuel2, rfl⟩ : ∃ f, fuel = f + 1 := ⟨fuel - 1, by omega⟩
    simp [search, hv, hvt, hvf]
  · intro off fuel acc v total hfuel hv hvt hvf hvc
    obtain ⟨fuel2, rfl⟩ : ∃ f, fuel = f + 1 := ⟨fuel - 1, by omega⟩
    simp [search, hv, hvt, hvf, hvc]
  · intro off fuel acc v total cnt hfuel hv hvt hvf hvc hva
    obtain ⟨fuel2, rfl⟩ : ∃ f, fuel = f + 1 := ⟨fuel - 1, by omega⟩
    simp [search, hv, hvt, hvf, hvc, hva]

/-- First concrete page for the pagination witness. -/
def wPage1 : JVal :=
  .jobj [("Total", .jnum 3), ("From", .jnum 0), ("Count", .jnum 2),
    ("Items", .jarr [.jnum 1, .jnum 2])]

/-- Second concrete page for the pagination witness. -/
def wPage2 : JVal :=
  .jobj [("Total", .jnum 3), ("From", .jnum 2), ("Count", .jnum 1),
    ("Items", .jarr [.jnum 3])]

/-- Concrete two-page provider for the pagination witness. -/
def wPages : Nat → Except ApiErr JVal :=
  fun off => if off = 0 then .ok wPage1 else .ok wPage2

/-- Witness for C4: the two-page run with totals 2 + 1 = 3 concatenates
to the three items in order. -/
theorem search_pagination_witness :
    goodPageRun wPages "Items" 3 0 [([.jnum 1, .jnum 2], 2), ([.jnum 3], 1)] ∧
    search wPages "Items" 2 0 [] =
      some (.ok [.jnum 1, .jnum 2, .jnum 3]) := by
  have hgood : goodPageRun wPages "Items" 3 0
      [([.jnum 1, .jnum 2], 2), ([.jnum 3], 1)] := by
    refine ⟨⟨wPage1, rfl, rfl, rfl, rfl, rfl⟩, by omega, ⟨wPage2, rfl, rfl,
      rfl, rfl, rfl⟩, by omega⟩
  refine ⟨hgood, ?_⟩
  have h := (search_pagination wPages "Items").1 3
    [([.jnum 1, .jnum 2], 2), ([.jnum 3], 1)] 2 hgood (by simp)
  simpa using h

/-- C5: single-resource lookup by a name or tag filter: zero search
results resolve to `none`, exactly one is returned, and two or more fail
with `TooManyResources` (no element is ever picked). -/
theorem single_resource_resolution (pages : Nat → Except ApiErr JVal)
    (resourceName : String) (fuel : Nat) (l : List JVal) :
    search pages resourceName fuel 0 [] = some (.ok l) →
    (l.length = 0 → searchSingleResource pages resourceName fuel =
      some (.ok none)) ∧
    (l.length = 1 → searchSingleResource pages resourceName fuel =
      some (.ok l.head?)) ∧
    (2 ≤ l.length → searchSingleResource pages resourceName fuel =
      some (.error (.tooManyResources resourceName l.length))) := by
  intro hsearch
  have hstep : searchSingleResource pages resourceName fuel =
      (if 1 < l.length then
        some (.error (.tooManyResources resourceName l.length))
      else if l.length < 1 then some (.ok none)
      else some (.ok l.head?)) := by
    unfold searchSingleResource
    rw [hsearch]
  refine ⟨?_, ?_, ?_⟩
  · intro hl
    rw [hstep, if_neg (by omega), if_pos (by omega)]
  · intro hl
    rw [hstep, if_neg (by omega), if_neg (by omega)]
  · intro hl
    rw [hstep, if_pos (by omega)]

/-- Concrete one-page, two-result provider for the at-most-one witness. -/
def wPagesTwoResults : Nat → Except ApiErr JVal :=
  fun _ => .ok (.jobj [("Total", .jnum 2), ("From", .jnum 0),
    ("Count", .jnum 2), ("Items", .jarr [.jnum 7, .jnum 8])])

/-- Witness for C5: a single-page search yielding two same-named
resources fails with `TooManyResources`. -/
theorem single_resource_resolution_witness :
    search wPagesTwoResults "Items" 1 0 [] =
      some (.ok [.jnum 7, .jnum 8]) ∧
    searchSingleResource wPagesTwoResults "Items" 1 =
      some (.error (.tooManyResources "Items" 2)) := by
  refine ⟨rfl, ?_⟩
  exact (single_resource_resolution wPagesTwoResults "Items" 1
    [.jnum 7, .jnum 8] rfl).2.2 (by simp)

/-! ## Workflow embedding infrastructure (cmd.rs)

The two workflows are embedded as trace-producing computations.  Every
provider/SSH call site appends the event identifying the call and reads
its result from an oracle; a result is success, an error (mapped into
`cmd::Error` by the `From` conversions, with the payload-free variants
collapsed to their module of origin), or a Rust panic.  `Run.bind`
mirrors the `?` operator: the continuation runs only on success, while
errors and unwinding abort the rest of the function body.  The
`diverged` outcome is the fuel artifact for the one unbounded inner
loop (`Clean`'s instance-status pre-check). -/

inductive StepRes (α : Type) where
  | ok (a : α)
  | err
  | panic
deriving DecidableEq, Repr

inductive Outcome (ε α : Type) where
  | ok (a : α)
  | err (e : ε)
  | panicked
  | diverged
deriving DecidableEq, Repr

structure Run (ev ε α : Type) where
  trace : List ev
  out : Outcome ε α
deriving DecidableEq, Repr

def Run.bind {ev ε α β : Type} (m : Run ev ε α) (f : α → Run ev ε β) :
    Run ev ε β :=
  match m.out with
  | .ok a => ⟨m.trace ++ (f a).trace, (f a).out⟩
  | .err e => ⟨m.trace, .err e⟩
  | .panicked => ⟨m.trace, .panicked⟩
  | .diverged => ⟨m.trace, .diverged⟩

def pureRun {ev ε α : Type} (a : α) : Run ev ε α := ⟨[], .ok a⟩

def failRun {ev ε α : Type} (e : ε) : Run ev ε α := ⟨[], .err e⟩

/-- One oracle-backed call: emit the event, map an error result to the
given workflow error. -/
def callStep {ev ε α : Type} (e0 : ev) (onErr : ε) (r : StepRes α) :
    Run ev ε α :=
  ⟨[e0], match r with
    | .ok a => .ok a
    | .err => .err onErr
    | .panic => .panicked⟩

/-- Every event of the computation's trace satisfies `P`. -/
def EmitsOnly {ev ε α : Type} (m : Run ev ε α) (P : ev → Prop) : Prop :=
  ∀ e, e ∈ m.trace → P e

lemma emitsOnly_bind {ev ε α β : Type} {m : Run ev ε α}
    {f : α → Run ev ε β} {P : ev → Prop} (hm : EmitsOnly m P)
    (hf : ∀ a, EmitsOnly (f a) P) : EmitsOnly (m.bind f) P := by
  intro e he
  unfold Run.bind at he
  rcases hout : m.out with a | e2 | _ | _ <;> rw [hout] at he <;>
    simp only [] at he
  · rcases List.mem_append.mp he with h | h
    · exact hm e h
    · exact hf a e h
  · exact hm e he
  · exact hm e he
  · exact hm e he

lemma emitsOnly_callStep {ev ε α : Type} {e0 : ev} {onErr : ε}
    {r : StepRes α} {P : ev → Prop} (h : P e0) :
    EmitsOnly (callStep e0 onErr r) P := by
  intro e he
  simp only [callStep] at he
  simp only [List.mem_singleton] at he
  exact he ▸ h

lemma emitsOnly_pureRun {ev ε α : Type} {a : α} {P : ev → Prop} :
    EmitsOnly (pureRun a : Run ev ε α) P := by
  intro e he
  simp [pureRun] at he

lemma emitsOnly_failRun {ev ε α : Type} {e1 : ε} {P : ev → Prop} :
    EmitsOnly (failRun e1 : Run ev ε α) P := by
  intro e he
  simp [failRun] at he

lemma bind_mem_split {ev ε α β : Type} {x : ev} {m : Run ev ε α}
    {f : α → Run ev ε β} (hx : x ∈ (m.bind f).trace) :
    x ∈ m.trace ∨ ∃ a, m.out = .ok a ∧ x ∈ (f a).trace := by
  unfold Run.bind at hx
  rcases hout : m.out with a | e2 | _ | _ <;> rw [hout] at hx <;>
    simp only [] at hx
  · rcases List.mem_append.mp hx with h | h
    · exact .inl h
    · exact .inr ⟨a, rfl, h⟩
  · exact .inl hx
  · exact .inl hx
  · exact .inl hx

lemma bind_trace_of_ok {ev ε α β : Type} {m : Run ev ε α} {a : α}
    {f : α → Run ev ε β} (h : m.out = .ok a) :
    (m.bind f).trace = m.trace ++ (f a).trace ∧
    (m.bind f).out = (f a).out := by
  unfold Run.bind
  rw [h]
  exact ⟨rfl, rfl⟩

/-- cmd::Error, keeping the payloads the claims inspect. -/
inductive CmdError where
  | primaryServerNotConnectedToSwitch
  | primarySwitchNotConnectedToVpcRouter
  | primarySshPublicKeyAlreadyRegisteredButMismatch (current supplied : String)
  | primarySshPublicKeyNotGivenForNewServerDisk
  | primarySshPublicKeyGivenButCouldntRead (msg : String)
  | primaryVpcRouterNotExists
  | serviceScriptError
  | apiError
  | serviceEnvError
deriving DecidableEq, Repr

/-! ## CleanCmd::run (cmd.rs lines 404-509) -/

inductive CKind where
  | vpcRouter
  | server
  | disk
  | switch
  | sshKey
deriving DecidableEq, Repr

inductive CEvent where
  | tryGet (k : CKind)
  | instanceStatus (k : CKind)
  | isUp (k : CKind)
  | powerDown (k : CKind)
  | waitDown (k : CKind)
  | delete (k : CKind)
  | waitDelete (k : CKind)
deriving DecidableEq, Repr

inductive InstStatus where
  | cleaning
  | up
  | down
deriving DecidableEq, Repr

/-- What one `instance_status` poll of the pre-check loop observes:
`ResourceUnknownInstanceStatus` (retried), another error (propagated), a
panic, or a status. -/
inductive StatusPoll where
  | ok (s : InstStatus)
  | unknownErr
  | otherErr
  | panic
deriving DecidableEq, Repr

/-- Results of every call site of `CleanCmd::run`.  `tryGet*` is whether
the equipment resolved (`Some`/`None`); resource ids carry no
information the control flow uses, so they are dropped. -/
structure CleanOracle where
  tryGetVpcRouter : StepRes Bool
  tryGetSwitch : StepRes Bool
  tryGetServer : StepRes Bool
  tryGetDisk : StepRes Bool
  vpcRouterStatus : Nat → StatusPoll
  serverStatus : Nat → StatusPoll
  isUpVpcRouter : StepRes Bool
  downVpcRouter : StepRes Unit
  waitDownVpcRouter : StepRes Unit
  deleteVpcRouter : StepRes Unit
  waitDeleteVpcRouter : StepRes Unit
  isUpServer : StepRes Bool
  downServer : StepRes Unit
  waitDownServer : StepRes Unit
  deleteServer : StepRes Unit
  waitDeleteServer : StepRes Unit
  deleteDisk : StepRes Unit
  waitDeleteDisk : StepRes Unit
  deleteSwitch : StepRes Unit
  waitDeleteSwitch : StepRes Unit

/-- The instance-status pre-check loop (cmd.rs lines 425-461): retry on
`ResourceUnknownInstanceStatus` or a transitional status, stop on Up or
Down, propagate any other error. -/
def waitStableStatus (k : CKind) (statuses : Nat → StatusPoll) :
    (fuel : Nat) → (i : Nat) → Run CEvent CmdError Unit
  | 0, _ => ⟨[], .diverged⟩
  | fuel + 1, i =>
    match statuses i with
    | .unknownErr =>
      let rest := waitStableStatus k statuses fuel (i + 1)
      ⟨.instanceStatus k :: rest.trace, rest.out⟩
    | .otherErr => ⟨[.instanceStatus k], .err .apiError⟩
    | .panic => ⟨[.instanceStatus k], .panicked⟩
    | .ok .up => ⟨[.instanceStatus k], .ok ()⟩
    | .ok .down => ⟨[.instanceStatus k], .ok ()⟩
    | .ok .cleaning =>
      let rest := waitStableStatus k statuses fuel (i + 1)
      ⟨.instanceStatus k :: rest.trace, rest.out⟩

/-- VPC-router teardown (cmd.rs lines 464-475): power down when up, then
delete and wait for deletion. -/
def routerTeardown (o : CleanOracle) : Run CEvent CmdError Unit :=
  (callStep (.isUp .vpcRouter) .apiError o.isUpVpcRouter).bind fun up =>
  (if up then
    (callStep (.powerDown .vpcRouter) .apiError o.downVpcRouter).bind fun _ =>
    callStep (.waitDown .vpcRouter) .apiError o.waitDownVpcRouter
   else pureRun ()).bind fun _ =>
  (callStep (.delete .vpcRouter) .apiError o.deleteVpcRouter).bind fun _ =>
  callStep (.waitDelete .vpcRouter) .apiError o.waitDeleteVpcRouter

/-- Server teardown (cmd.rs lines 477-488). -/
def serverTeardown (o : CleanOracle) : Run CEvent CmdError Unit :=
  (callStep (.isUp .server) .apiError o.isUpServer).bind fun up =>
  (if up then
    (callStep (.powerDown .server) .apiError o.downServer).bind fun _ =>
    callStep (.waitDown .server) .apiError o.waitDownServer
   else pureRun ()).bind fun _ =>
  (callStep (.delete .server) .apiError o.deleteServer).bind fun _ =>
  callStep (.waitDelete .server) .apiError o.waitDeleteServer

/-- Disk teardown (cmd.rs lines 490-495). -/
def diskTeardown (o : CleanOracle) : Run CEvent CmdError Unit :=
  (callStep (.delete .disk) .apiError o.deleteDisk).bind fun _ =>
  callStep (.waitDelete .disk) .apiError o.waitDeleteDisk

/-- Switch teardown (cmd.rs lines 497-502). -/
def switchTeardown (o : CleanOracle) : Run CEvent CmdError Unit :=
  (callStep (.delete .switch) .apiError o.deleteSwitch).bind fun _ =>
  callStep (.waitDelete .switch) .apiError o.waitDeleteSwitch

/-- `str::trim`: strip leading and trailing whitespace.  (Defined
structurally over the character list so that concrete instances reduce
in the kernel.) -/
def rustTrim (s : String) : String :=
  ⟨((s.toList.dropWhile Char.isWhitespace).reverse.dropWhile
    Char.isWhitespace).reverse⟩

/-- The part of `CleanCmd::run` after equipment resolution: pre-check
loops for the present vpc router and server, then the four teardown
blocks in source order. -/
def cleanSuffix (o : CleanOracle) (fuel : Nat)
    (routerPresent switchPresent serverPresent diskPresent : Bool) :
    Run CEvent CmdError Unit :=
  (if routerPresent then waitStableStatus .vpcRouter o.vpcRouterStatus fuel 0
   else pureRun ()).bind fun _ =>
  (if serverPresent then waitStableStatus .server o.serverStatus fuel 0
   else pureRun ()).bind fun _ =>
  (if routerPresent then routerTeardown o else pureRun ()).bind fun _ =>
  (if serverPresent then serverTeardown o else pureRun ()).bind fun _ =>
  (if diskPresent then diskTeardown o else pureRun ()).bind fun _ =>
  (if switchPresent then switchTeardown o else pureRun ())

/-- `CleanCmd::run`: without `--force`, a trimmed stdin line different
from the prefix aborts with `Ok(())` before any provider call; otherwise
resolve the four equipments, wait for stable instance statuses, then
tear down vpc router, server, disk, switch.  The SSH key has no
teardown step. -/
def cleanRun (o : CleanOracle) (force : Bool) (stdinLine prefixStr : String)
    (fuel : Nat) : Run CEvent CmdError Unit :=
  if !force && (rustTrim stdinLine != prefixStr) then ⟨[], .ok ()⟩
  else
    (callStep (.tryGet .vpcRouter) .serviceEnvError o.tryGetVpcRouter).bind
      fun routerPresent =>
    (callStep (.tryGet .switch) .serviceEnvError o.tryGetSwitch).bind
      fun switchPresent =>
    (callStep (.tryGet .server) .serviceEnvError o.tryGetServer).bind
      fun serverPresent =>
    (callStep (.tryGet .disk) .serviceEnvError o.tryGetDisk).bind
      fun diskPresent =>
    cleanSuffix o fuel routerPresent switchPresent serverPresent diskPresent

/-- C10: `Clean` without `--force`, when the trimmed stdin line differs
from the prefix, returns `Ok(())` having issued no provider call at all
— indistinguishable by result value from a completed teardown. -/
theorem clean_confirmation_mismatch_returns_ok (o : CleanOracle)
    (line p : String) (fuel : Nat) (h : rustTrim line ≠ p) :
    cleanRun o false line p fuel = ⟨[], .ok ()⟩ := by
  unfold cleanRun
  rw [if_pos]
  simp [h]

/-- All-success oracle used by the Clean witnesses and counterexample. -/
def cleanOracleAllOk : CleanOracle where
  tryGetVpcRouter := .ok true
  tryGetSwitch := .ok true
  tryGetServer := .ok true
  tryGetDisk := .ok true
  vpcRouterStatus := fun _ => .ok .up
  serverStatus := fun _ => .ok .up
  isUpVpcRouter := .ok true
  downVpcRouter := .ok ()
  waitDownVpcRouter := .ok ()
  deleteVpcRouter := .ok ()
  waitDeleteVpcRouter := .ok ()
  isUpServer := .ok true
  downServer := .ok ()
  waitDownServer := .ok ()
  deleteServer := .ok ()
  waitDeleteServer := .ok ()
  deleteDisk := .ok ()
  waitDeleteDisk := .ok ()
  deleteSwitch := .ok ()
  waitDeleteSwitch := .ok ()

/-- Witness for C10: a mismatching confirmation line aborts with
success and an empty trace. -/
theorem clean_confirmation_mismatch_returns_ok_witness :
    (rustTrim "no" ≠ "p") ∧
    cleanRun cleanOracleAllOk false "no" "p" 1 =
      ⟨[], .ok ()⟩ := by
  refine ⟨by decide, ?_⟩
  exact clean_confirmation_mismatch_returns_ok cleanOracleAllOk "no" "p" 1
    (by decide)

/-- Counterexample to C6 as stated: in a fully successful `Clean` run
with every resource present, the switch delete is issued after the
server delete and after the disk delete — not between the vpc-router
and server steps as the claim orders them. -/
theorem clean_order_counterexample :
    (CEvent.delete .server) ∈ (cleanRun cleanOracleAllOk true "" "p" 1).trace ∧
    (CEvent.delete .switch) ∈ (cleanRun cleanOracleAllOk true "" "p" 1).trace ∧
    ((cleanRun cleanOracleAllOk true "" "p" 1).trace.indexOf
      (CEvent.delete .disk) <
     (cleanRun cleanOracleAllOk true "" "p" 1).trace.indexOf
      (CEvent.delete .switch)) ∧
    ¬ ((cleanRun cleanOracleAllOk true "" "p" 1).trace.indexOf
      (CEvent.delete .switch) <
       (cleanRun cleanOracleAllOk true "" "p" 1).trace.indexOf
      (CEvent.delete .server)) := by
  decide

/-- The resource kind an event concerns. -/
def CEvent.kind : CEvent → CKind
  | .tryGet k => k
  | .instanceStatus k => k
  | .isUp k => k
  | .powerDown k => k
  | .waitDown k => k
  | .delete k => k
  | .waitDelete k => k

lemma emitsOnly_ite {ev ε α : Type} {c : Prop} [Decidable c]
    {A B : Run ev ε α} {P : ev → Prop} (hA : EmitsOnly A P)
    (hB : EmitsOnly B P) : EmitsOnly (if c then A else B) P := by
  by_cases h : c
  · simpa [h] using hA
  · simpa [h] using hB

lemma emitsOnly_mono {ev ε α : Type} {m : Run ev ε α} {P Q : ev → Prop}
    (h : EmitsOnly m P) (himp : ∀ e, P e → Q e) : EmitsOnly m Q :=
  fun e he => himp e (h e he)

lemma not_mem_of_emitsOnly {ev ε α : Type} {m : Run ev ε α} {P : ev → Prop}
    {x : ev} (h : EmitsOnly m P) (hx : ¬ P x) : x ∉ m.trace :=
  fun hmem => hx (h x hmem)

lemma peelStep {ev ε α β : Type} {x : ev} {m : Run ev ε α}
    {f : α → Run ev ε β} (hx : x ∈ (m.bind f).trace) (hnot : x ∉ m.trace) :
    ∃ a, m.out = .ok a ∧ x ∈ (f a).trace := by
  rcases bind_mem_split hx with h | h
  · exact absurd h hnot
  · exact h

lemma bind_out_ok_elim {ev ε α β : Type} {m : Run ev ε α}
    {f : α → Run ev ε β} {b : β} (h : (m.bind f).out = .ok b) :
    ∃ a, m.out = .ok a ∧ (f a).out = .ok b ∧
      (m.bind f).trace = m.trace ++ (f a).trace := by
  unfold Run.bind at h ⊢
  rcases hout : m.out with a | e2 | _ | _ <;> rw [hout] at h <;>
    simp only [] at h ⊢
  · exact ⟨a, rfl, h, rfl⟩
  · cases h
  · cases h
  · cases h

lemma waitStableStatus_emits (k : CKind) (statuses : Nat → StatusPoll) :
    ∀ (fuel i : Nat),
    EmitsOnly (waitStableStatus k statuses fuel i)
      (fun e => e = .instanceStatus k) := by
  intro fuel
  induction fuel with
  | zero =>
    intro i e he
    simp [waitStableStatus] at he
  | succ fuel ih =>
    intro i e he
    unfold waitStableStatus at he
    rcases hs : statuses i with s | _ | _ | _ <;> rw [hs] at he
    · rcases s <;> simp only [] at he
      · rcases List.mem_cons.mp he with h | h
        · exact h
        · exact ih (i + 1) e h
      · exact List.mem_singleton.mp he
      · exact List.mem_singleton.mp he
    · rcases List.mem_cons.mp he with h | h
      · exact h
      · exact ih (i + 1) e h
    · exact List.mem_singleton.mp he
    · exact List.mem_singleton.mp he

lemma routerTeardown_emits (o : CleanOracle) :
    EmitsOnly (routerTeardown o) (fun e => e.kind = .vpcRouter) :=
  emitsOnly_bind (emitsOnly_callStep rfl) (fun _ =>
    emitsOnly_bind
      (emitsOnly_ite
        (emitsOnly_bind (emitsOnly_callStep rfl)
          (fun _ => emitsOnly_callStep rfl))
        emitsOnly_pureRun)
      (fun _ =>
        emitsOnly_bind (emitsOnly_callStep rfl)
          (fun _ => emitsOnly_callStep rfl)))

lemma serverTeardown_emits (o : CleanOracle) :
    EmitsOnly (serverTeardown o) (fun e => e.kind = .server) :=
  emitsOnly_bind (emitsOnly_callStep rfl) (fun _ =>
    emitsOnly_bind
      (emitsOnly_ite
        (emitsOnly_bind (emitsOnly_callStep rfl)
          (fun _ => emitsOnly_callStep rfl))
        emitsOnly_pureRun)
      (fun _ =>
        emitsOnly_bind (emitsOnly_callStep rfl)
          (fun _ => emitsOnly_callStep rfl)))

lemma diskTeardown_emits (o : CleanOracle) :
    EmitsOnly (diskTeardown o)
      (fun e => e = .delete .disk ∨ e = .waitDelete .disk) :=
  emitsOnly_bind (emitsOnly_callStep (.inl rfl))
    (fun _ => emitsOnly_callStep (.inr rfl))

lemma switchTeardown_emits (o : CleanOracle) :
    EmitsOnly (switchTeardown o) (fun e => e.kind = .switch) :=
  emitsOnly_bind (emitsOnly_callStep rfl)
    (fun _ => emitsOnly_callStep rfl)

lemma serverTeardown_ok_mem_waitDelete (o : CleanOracle)
    (h : (serverTeardown o).out = .ok ()) :
    CEvent.waitDelete .server ∈ (serverTeardown o).trace := by
  unfold serverTeardown at h ⊢
  obtain ⟨up, h1, h2, htr⟩ := bind_out_ok_elim h
  rw [htr]
  obtain ⟨u2, h3, h4, htr2⟩ := bind_out_ok_elim h2
  rw [htr2]
  obtain ⟨u3, h5, h6, htr3⟩ := bind_out_ok_elim h4
  rw [htr3]
  simp [callStep]

lemma bind_trace_of_ok2 {ev ε α β : Type} (m : Run ev ε α)
    (f : α → Run ev ε β) {a : α} (h : m.out = .ok a) :
    (m.bind f).trace = m.trace ++ (f a).trace := by
  unfold Run.bind
  rw [h]

lemma cleanSuffix_disk_after_server (o : CleanOracle) (fuel : Nat)
    (b1 b2 b3 b4 : Bool)
    (hdisk : CEvent.delete .disk ∈ (cleanSuffix o fuel b1 b2 b3 b4).trace)
    (hserver :
      CEvent.delete .server ∈ (cleanSuffix o fuel b1 b2 b3 b4).trace) :
    ∃ A B, (cleanSuffix o fuel b1 b2 b3 b4).trace = A ++ B ∧
      CEvent.delete .server ∈ A ∧ CEvent.waitDelete .server ∈ A ∧
      CEvent.delete .disk ∈ B ∧ CEvent.delete .disk ∉ A := by
  unfold cleanSuffix at hdisk hserver ⊢
  set W1 := (if b1 = true then
    waitStableStatus CKind.vpcRouter o.vpcRouterStatus fuel 0
    else pureRun ()) with hW1
  set W2 := (if b3 = true then
    waitStableStatus CKind.server o.serverStatus fuel 0
    else pureRun ()) with hW2
  set RT := (if b1 = true then routerTeardown o else pureRun ()) with hRT
  set ST := (if b3 = true then serverTeardown o else pureRun ()) with hST
  set DT := (if b4 = true then diskTeardown o else pureRun ()) with hDT
  set SWT := (if b2 = true then switchTeardown o else pureRun ()) with hSWT
  have eW1 : EmitsOnly W1 (fun e => e = CEvent.instanceStatus .vpcRouter) := by
    rw [hW1]
    exact emitsOnly_ite (waitStableStatus_emits _ _ fuel 0) emitsOnly_pureRun
  have eW2 : EmitsOnly W2 (fun e => e = CEvent.instanceStatus .server) := by
    rw [hW2]
    exact emitsOnly_ite (waitStableStatus_emits _ _ fuel 0) emitsOnly_pureRun
  have eRT : EmitsOnly RT (fun e => e.kind = CKind.vpcRouter) := by
    rw [hRT]
    exact emitsOnly_ite (routerTeardown_emits o) emitsOnly_pureRun
  have eST : EmitsOnly ST (fun e => e.kind = CKind.server) := by
    rw [hST]
    exact emitsOnly_ite (serverTeardown_emits o) emitsOnly_pureRun
  have eTail : EmitsOnly (DT.bind fun _ => SWT)
      (fun e => e = CEvent.delete .disk ∨ e = CEvent.waitDelete .disk ∨
        e.kind = CKind.switch) := by
    refine emitsOnly_bind ?_ (fun _ => ?_)
    · rw [hDT]
      exact emitsOnly_ite
        (emitsOnly_mono (diskTeardown_emits o) (by tauto)) emitsOnly_pureRun
    · rw [hSWT]
      exact emitsOnly_ite
        (emitsOnly_mono (switchTeardown_emits o) (by tauto)) emitsOnly_pureRun
  have nW1d := not_mem_of_emitsOnly eW1
    (show ¬ (CEvent.delete .disk = CEvent.instanceStatus .vpcRouter) by decide)
  have nW2d := not_mem_of_emitsOnly eW2
    (show ¬ (CEvent.delete .disk = CEvent.instanceStatus .server) by decide)
  have nRTd := not_mem_of_emitsOnly eRT
    (show ¬ ((CEvent.delete .disk).kind = CKind.vpcRouter) by decide)
  have nSTd := not_mem_of_emitsOnly eST
    (show ¬ ((CEvent.delete .disk).kind = CKind.server) by decide)
  have nW1s := not_mem_of_emitsOnly eW1
    (show ¬ (CEvent.delete .server = CEvent.instanceStatus .vpcRouter)
      by decide)
  have nW2s := not_mem_of_emitsOnly eW2
    (show ¬ (CEvent.delete .server = CEvent.instanceStatus .server) by decide)
  have nRTs := not_mem_of_emitsOnly eRT
    (show ¬ ((CEvent.delete .server).kind = CKind.vpcRouter) by decide)
  have nTails := not_mem_of_emitsOnly eTail
    (show ¬ (CEvent.delete .server = CEvent.delete .disk ∨
      CEvent.delete .server = CEvent.waitDelete .disk ∨
      (CEvent.delete .server).kind = CKind.switch) by decide)
  obtain ⟨u1, ho1, hd1⟩ := peelStep hdisk nW1d
  obtain ⟨u2, ho2, hd2⟩ := peelStep hd1 nW2d
  obtain ⟨u3, ho3, hd3⟩ := peelStep hd2 nRTd
  obtain ⟨u4, ho4, hd4⟩ := peelStep hd3 nSTd
  have E : (W1.bind fun _ => W2.bind fun _ => RT.bind fun _ =>
      ST.bind fun _ => DT.bind fun _ => SWT).trace =
      W1.trace ++ (W2.trace ++ (RT.trace ++ (ST.trace ++
        (DT.bind fun _ => SWT).trace))) := by
    rw [bind_trace_of_ok2 W1 (fun _ => W2.bind fun _ => RT.bind fun _ =>
      ST.bind fun _ => DT.bind fun _ => SWT) ho1]
    rw [bind_trace_of_ok2 W2 (fun _ => RT.bind fun _ =>
      ST.bind fun _ => DT.bind fun _ => SWT) ho2]
    rw [bind_trace_of_ok2 RT (fun _ =>
      ST.bind fun _ => DT.bind fun _ => SWT) ho3]
    rw [bind_trace_of_ok2 ST (fun _ => DT.bind fun _ => SWT) ho4]
  rw [E] at hserver ⊢
  have hSTs : CEvent.delete .server ∈ ST.trace := by
    rcases List.mem_append.mp hserver with h | h
    · exact absurd h nW1s
    rcases List.mem_append.mp h with h | h
    · exact absurd h nW2s
    rcases List.mem_append.mp h with h | h
    · exact absurd h nRTs
    rcases List.mem_append.mp h with h | h
    · exact h
    · exact absurd h nTails
  have hb3 : b3 = true := by
    cases hb : b3
    · rw [hb] at hST
      rw [hST] at hSTs
      simp [pureRun] at hSTs
    · rfl
  have hSTserver : ST = serverTeardown o := by
    rw [hST, hb3]
    simp
  have hSTw : CEvent.waitDelete .server ∈ ST.trace := by
    rw [hSTserver]
    refine serverTeardown_ok_mem_waitDelete o ?_
    rw [← hSTserver]
    cases u4
    exact ho4
  refine ⟨W1.trace ++ (W2.trace ++ (RT.trace ++ ST.trace)),
    (DT.bind fun _ => SWT).trace, by simp, ?_, ?_, hd4, ?_⟩
  · simp only [List.mem_append]
    tauto
  · simp only [List.mem_append]
    tauto
  · simp only [List.mem_append]
    push_neg
    exact ⟨nW1d, nW2d, nRTd, nSTd⟩

/-- C6 (amended): a `Clean` run destroys existing resources in the
order vpc router (power down, delete), server (power down, delete),
disk, switch — the switch is deleted last, not second.  Part 1: on the
fully successful all-present run the trace is exactly this order, with
each delete followed by its delete-wait before the next delete.
Part 2: no run ever issues an SSH-key delete or delete-wait.  Part 3: in
every run issuing both a server delete and a disk delete, the trace
splits so that the server delete and its completed delete-wait lie
strictly before every disk delete. -/
theorem clean_teardown_order :
    (∀ (o : CleanOracle) (force : Bool) (line p : String) (fuel : Nat),
      (!force && (rustTrim line != p)) = false →
      o.tryGetVpcRouter = .ok true → o.tryGetSwitch = .ok true →
      o.tryGetServer = .ok true → o.tryGetDisk = .ok true →
      o.vpcRouterStatus 0 = .ok .up → o.serverStatus 0 = .ok .up →
      o.isUpVpcRouter = .ok true → o.downVpcRouter = .ok () →
      o.waitDownVpcRouter = .ok () → o.deleteVpcRouter = .ok () →
      o.waitDeleteVpcRouter = .ok () → o.isUpServer = .ok true →
      o.downServer = .ok () → o.waitDownServer = .ok () →
      o.deleteServer = .ok () → o.waitDeleteServer = .ok () →
      o.deleteDisk = .ok () → o.waitDeleteDisk = .ok () →
      o.deleteSwitch = .ok () → o.waitDeleteSwitch = .ok () →
      0 < fuel →
      cleanRun o force line p fuel = ⟨[
        .tryGet .vpcRouter, .tryGet .switch, .tryGet .server, .tryGet .disk,
        .instanceStatus .vpcRouter, .instanceStatus .server,
        .isUp .vpcRouter, .powerDown .vpcRouter, .waitDown .vpcRouter,
        .delete .vpcRouter, .waitDelete .vpcRouter,
        .isUp .server, .powerDown .server, .waitDown .server,
        .delete .server, .waitDelete .server,
        .delete .disk, .waitDelete .disk,
        .delete .switch, .waitDelete .switch], .ok ()⟩) ∧
    (∀ (o : CleanOracle) (force : Bool) (line p : String) (fuel : Nat),
      CEvent.delete .sshKey ∉ (cleanRun o force line p fuel).trace ∧
      CEvent.waitDelete .sshKey ∉ (cleanRun o force line p fuel).trace) ∧
    (∀ (o : CleanOracle) (force : Bool) (line p : String) (fuel : Nat),
      CEvent.delete .disk ∈ (cleanRun o force line p fuel).trace →
      CEvent.delete .server ∈ (cleanRun o force line p fuel).trace →
      ∃ A B, (cleanRun o force line p fuel).trace = A ++ B ∧
        CEvent.delete .server ∈ A ∧ CEvent.waitDelete .server ∈ A ∧
        CEvent.delete .disk ∈ B ∧ CEvent.delete .disk ∉ A) := by
  refine ⟨?_, ?_, ?_⟩
  · intro o force line p fuel hcond h1 h2 h3 h4 hs1 hs2 hup hdn hwdn hdel
      hwdel hups hdns hwdns hdels hwdels hdd hwdd hds hwds hfuel
    obtain ⟨f, rfl⟩ : ∃ f, fuel = f + 1 := ⟨fuel - 1, by omega⟩
    simp [cleanRun, cleanSuffix, hcond, h1, h2, h3, h4, hs1, hs2, hup, hdn,
      hwdn, hdel, hwdel, hups, hdns, hwdns, hdels, hwdels, hdd, hwdd, hds,
      hwds, routerTeardown, serverTeardown, diskTeardown, switchTeardown,
      waitStableStatus, callStep, Run.bind, pureRun]
  · intro o force line p fuel
    have hem : EmitsOnly (cleanRun o force line p fuel)
        (fun e => e.kind ≠ CKind.sshKey) := by
      unfold cleanRun
      by_cases hc : (!force && (rustTrim line != p)) = true
      · rw [if_pos hc]
        intro e he
        simp at he
      · rw [if_neg hc]
        refine emitsOnly_bind (emitsOnly_callStep (by decide)) (fun b1 => ?_)
        refine emitsOnly_bind (emitsOnly_callStep (by decide)) (fun b2 => ?_)
        refine emitsOnly_bind (emitsOnly_callStep (by decide)) (fun b3 => ?_)
        refine emitsOnly_bind (emitsOnly_callStep (by decide)) (fun b4 => ?_)
        unfold cleanSuffix
        refine emitsOnly_bind (emitsOnly_ite
          (emitsOnly_mono (waitStableStatus_emits _ _ fuel 0)
            (by intro e he; rw [he]; decide))
          emitsOnly_pureRun) (fun _ => ?_)
        refine emitsOnly_bind (emitsOnly_ite
          (emitsOnly_mono (waitStableStatus_emits _ _ fuel 0)
            (by intro e he; rw [he]; decide))
          emitsOnly_pureRun) (fun _ => ?_)
        refine emitsOnly_bind (emitsOnly_ite
          (emitsOnly_mono (routerTeardown_emits o)
            (by intro e he; rw [he]; decide))
          emitsOnly_pureRun) (fun _ => ?_)
        refine emitsOnly_bind (emitsOnly_ite
          (emitsOnly_mono (serverTeardown_emits o)
            (by intro e he; rw [he]; decide))
          emitsOnly_pureRun) (fun _ => ?_)
        refine emitsOnly_bind (emitsOnly_ite
          (emitsOnly_mono (diskTeardown_emits o)
            (by intro e he; rcases he with h | h <;> rw [h] <;> decide))
          emitsOnly_pureRun) (fun _ => ?_)
        exact emitsOnly_ite
          (emitsOnly_mono (switchTeardown_emits o)
            (by intro e he; rw [he]; decide))
          emitsOnly_pureRun
    exact ⟨not_mem_of_emitsOnly hem (by decide),
      not_mem_of_emitsOnly hem (by decide)⟩
  · intro o force line p fuel hdisk hserver
    by_cases hc : (!force && (rustTrim line != p)) = true
    · unfold cleanRun at hdisk
      rw [if_pos hc] at hdisk
      simp at hdisk
    · unfold cleanRun at hdisk hserver ⊢
      rw [if_neg hc] at hdisk hserver ⊢
      have n1 : CEvent.delete .disk ∉ (callStep (CEvent.tryGet .vpcRouter)
          CmdError.serviceEnvError o.tryGetVpcRouter).trace := by
        simp [callStep]
      have n2 : CEvent.delete .disk ∉ (callStep (CEvent.tryGet .switch)
          CmdError.serviceEnvError o.tryGetSwitch).trace := by
        simp [callStep]
      have n3 : CEvent.delete .disk ∉ (callStep (CEvent.tryGet .server)
          CmdError.serviceEnvError o.tryGetServer).trace := by
        simp [callStep]
      have n4 : CEvent.delete .disk ∉ (callStep (CEvent.tryGet .disk)
          CmdError.serviceEnvError o.tryGetDisk).trace := by
        simp [callStep]
      obtain ⟨b1, ho1, hd1⟩ := peelStep hdisk n1
      obtain ⟨b2, ho2, hd2⟩ := peelStep hd1 n2
      obtain ⟨b3, ho3, hd3⟩ := peelStep hd2 n3
      obtain ⟨b4, ho4, hd4⟩ := peelStep hd3 n4
      have E1 := bind_trace_of_ok2 (callStep (CEvent.tryGet .vpcRouter)
          CmdError.serviceEnvError o.tryGetVpcRouter)
        (fun routerPresent =>
          (callStep (CEvent.tryGet .switch) CmdError.serviceEnvError
            o.tryGetSwitch).bind fun switchPresent =>
          (callStep (CEvent.tryGet .server) CmdError.serviceEnvError
            o.tryGetServer).bind fun serverPresent =>
          (callStep (CEvent.tryGet .disk) CmdError.serviceEnvError
            o.tryGetDisk).bind fun diskPresent =>
          cleanSuffix o fuel routerPresent switchPresent serverPresent
            diskPresent) ho1
      have E2 := bind_trace_of_ok2 (callStep (CEvent.tryGet .switch)
          CmdError.serviceEnvError o.tryGetSwitch)
        (fun switchPresent =>
          (callStep (CEvent.tryGet .server) CmdError.serviceEnvError
            o.tryGetServer).bind fun serverPresent =>
          (callStep (CEvent.tryGet .disk) CmdError.serviceEnvError
            o.tryGetDisk).bind fun diskPresent =>
          cleanSuffix o fuel b1 switchPresent serverPresent diskPresent) ho2
      have E3 := bind_trace_of_ok2 (callStep (CEvent.tryGet .server)
          CmdError.serviceEnvError o.tryGetServer)
        (fun serverPresent =>
          (callStep (CEvent.tryGet .disk) CmdError.serviceEnvError
            o.tryGetDisk).bind fun diskPresent =>
          cleanSuffix o fuel b1 b2 serverPresent diskPresent) ho3
      have E4 := bind_trace_of_ok2 (callStep (CEvent.tryGet .disk)
          CmdError.serviceEnvError o.tryGetDisk)
        (fun diskPresent => cleanSuffix o fuel b1 b2 b3 diskPresent) ho4
      rw [E1, E2, E3, E4] at hserver ⊢
      have hserver2 : CEvent.delete .server ∈
          (cleanSuffix o fuel b1 b2 b3 b4).trace := by
        simp only [callStep, List.cons_append, List.nil_append,
          List.mem_cons] at hserver
        rcases hserver with h | h
        · cases h
        rcases h with h | h
        · cases h
        rcases h with h | h
        · cases h
        rcases h with h | h
        · cases h
        exact h
      obtain ⟨A, B, hAB, hsA, hwA, hdB, hdA⟩ :=
        cleanSuffix_disk_after_server o fuel b1 b2 b3 b4 hd4 hserver2
      refine ⟨[CEvent.tryGet .vpcRouter, CEvent.tryGet .switch,
        CEvent.tryGet .server, CEvent.tryGet .disk] ++ A, B, ?_, ?_, ?_,
        hdB, ?_⟩
      · rw [hAB]
        simp [callStep]
      · simp only [List.mem_append]
        tauto
      · simp only [List.mem_append]
        tauto
      · simp only [List.mem_append, List.mem_cons]
        push_neg
        refine ⟨⟨by decide, by decide, by decide, by decide, by simp⟩, hdA⟩

/-- Witness for the amended C6 at the all-success oracle: the concrete
trace realises the router, server, disk, switch order. -/
theorem clean_teardown_order_witness :
    (!true && (rustTrim "" != "p")) = false ∧ 0 < 1 ∧
    cleanRun cleanOracleAllOk true "" "p" 1 = ⟨[
      .tryGet .vpcRouter, .tryGet .switch, .tryGet .server, .tryGet .disk,
      .instanceStatus .vpcRouter, .instanceStatus .server,
      .isUp .vpcRouter, .powerDown .vpcRouter, .waitDown .vpcRouter,
      .delete .vpcRouter, .waitDelete .vpcRouter,
      .isUp .server, .powerDown .server, .waitDown .server,
      .delete .server, .waitDelete .server,
      .delete .disk, .waitDelete .disk,
      .delete .switch, .waitDelete .switch], .ok ()⟩ :=
  ⟨by decide, by decide,
    clean_teardown_order.1 cleanOracleAllOk true "" "p" 1 (by decide)
      rfl rfl rfl rfl rfl rfl rfl rfl rfl rfl rfl rfl rfl rfl rfl rfl rfl
      rfl rfl rfl (by decide)⟩

/-! ## UpdateCmd::run (cmd.rs lines 192-393)

The run reads the SSH public key file, resolves the vpc router and
switch, powers the router, disables the firewall for the bootstrap
phase, arms a `Drop` guard that re-enables it, and then performs the
remainder (server, disk, note, key, archive resolution, server power
cycling and the remote setup protocol).  Oracle `tryGet*` fields are
`Option Unit` (`Option String` for the SSH key, whose stored public-key
text the mismatch check compares); resource ids carry no control-flow
information and are dropped.  The guard's `Drop` implementation runs on
every scope exit after arming — normal return, `?` error return, or
panic unwinding — and each of its three calls aborts the process on
failure (`expect`), modelled as `panicked`. -/

inductive UEvent where
  | readPubkeyFile
  | tryGetVpcRouter
  | createVpcRouter
  | waitAvailableRouter
  | tryGetSwitch
  | checkSwitchConnected
  | createSwitch
  | connectSwitchToRouter
  | checkRouterUp
  | powerOnRouter
  | waitRouterUp
  | updateRouterConfig (firewallEnabled : Bool)
  | applyRouterConfig
  | tryGetServer
  | checkServerConnected
  | createServer
  | tryGetDisk
  | waitAvailableDisk
  | tryGetNote
  | updateNoteContent
  | waitAvailableNote
  | createNote
  | tryGetSshKey
  | createSshKey
  | searchLatestArchive
  | createDisk
  | waitAvailableServer
  | checkServerUp
  | powerOnServer
  | waitServerUp
  | powerOffServer
  | waitServerDown
  | prepareSetupScript
  | waitForSetupDone
deriving DecidableEq, Repr

/-- Results of every call site of `UpdateCmd::run`, one field per call
site in source order. -/
structure UOracle where
  readPubkey : Except String String
  tryGetVpcRouter : StepRes (Option Unit)
  createVpcRouter : StepRes Unit
  waitAvailRouterExisting : StepRes Unit
  waitAvailRouterCreated : StepRes Unit
  tryGetSwitch : StepRes (Option Unit)
  isConnectedSwitch : StepRes Bool
  createSwitch : StepRes Unit
  connectSwitch : StepRes Unit
  isUpRouter : StepRes Bool
  waitAvailRouterUp : StepRes Unit
  upRouter : StepRes Unit
  waitUpRouter : StepRes Unit
  waitAvailRouterBooted : StepRes Unit
  updateConfigOff : StepRes Unit
  applyConfigOff : StepRes Unit
  waitAvailRouterGuarded : StepRes Unit
  tryGetServer : StepRes (Option Unit)
  isConnectedServer : StepRes Bool
  createServer : StepRes Unit
  tryGetDisk : StepRes (Option Unit)
  waitAvailDiskExisting : StepRes Unit
  tryGetNote : StepRes (Option Unit)
  updateNoteContent : StepRes Unit
  waitAvailNoteExisting : StepRes Unit
  createNote : StepRes Unit
  waitAvailNoteCreated : StepRes Unit
  tryGetSshKey : StepRes (Option String)
  createSshKey : StepRes Unit
  latestArchive : StepRes Unit
  createDisk : StepRes Unit
  waitAvailDiskCreated : StepRes Unit
  waitAvailServer : StepRes Unit
  isUpServer : StepRes Bool
  upServer : StepRes Unit
  waitUpServer : StepRes Unit
  tryGetVpcRouter2 : StepRes (Option Unit)
  publicSharedIp : StepRes Unit
  prepareScript : StepRes Unit
  downServer : StepRes Unit
  waitDownServer : StepRes Unit
  upServer2 : StepRes Unit
  waitUpServer2 : StepRes Unit
  waitForDone : StepRes Unit
  guardUpdateConfigOn : StepRes Unit
  guardApplyConfigOn : StepRes Unit
  guardWaitAvail : StepRes Unit

/-- An api-module call (`?` wraps its error as `Error::ApiError`). -/
def apiStep {α : Type} (e : UEvent) (r : StepRes α) :
    Run UEvent CmdError α :=
  callStep e .apiError r

/-- A service_env-module call (`Error::ServiceEnvError`). -/
def envStep {α : Type} (e : UEvent) (r : StepRes α) :
    Run UEvent CmdError α :=
  callStep e .serviceEnvError r

/-- A service_script-module call (`Error::ServiceScriptError`). -/
def scriptStep {α : Type} (e : UEvent) (r : StepRes α) :
    Run UEvent CmdError α :=
  callStep e .serviceScriptError r

/-- `fs::read_to_string` of the public-key path: the very first
operation of the run; failure is
`PrimarySshPublicKeyGivenButCouldntRead`. -/
def readKeyStep (r : Except String String) : Run UEvent CmdError String :=
  ⟨[.readPubkeyFile], match r with
    | .ok s => .ok s
    | .error msg => .err (.primarySshPublicKeyGivenButCouldntRead msg)⟩

/-- `vpc_router.public_shared_ip()?`: fallible local extraction from the
already-fetched resource, no provider call of its own. -/
def publicIpStep (r : StepRes Unit) : Run UEvent CmdError Unit :=
  ⟨[], match r with
    | .ok _ => .ok ()
    | .err => .err .apiError
    | .panic => .panicked⟩

/-- VPC router resolution (cmd.rs lines 203-218). -/
def routerResolveStep (o : UOracle) : Run UEvent CmdError Unit :=
  (envStep .tryGetVpcRouter o.tryGetVpcRouter).bind fun existing =>
  match existing with
  | some _ => apiStep .waitAvailableRouter o.waitAvailRouterExisting
  | none =>
    (envStep .createVpcRouter o.createVpcRouter).bind fun _ =>
    apiStep .waitAvailableRouter o.waitAvailRouterCreated

/-- Switch resolution (cmd.rs lines 220-237): an existing switch not
connected to the router is a hard error. -/
def switchResolveStep (o : UOracle) : Run UEvent CmdError Unit :=
  (envStep .tryGetSwitch o.tryGetSwitch).bind fun existing =>
  match existing with
  | some _ =>
    (apiStep .checkSwitchConnected o.isConnectedSwitch).bind fun isConnected =>
    if isConnected then pureRun ()
    else failRun .primarySwitchNotConnectedToVpcRouter
  | none =>
    (envStep .createSwitch o.createSwitch).bind fun _ =>
    apiStep .connectSwitchToRouter o.connectSwitch

/-- VPC router power phase (cmd.rs lines 239-252). -/
def routerPowerStep (o : UOracle) : Run UEvent CmdError Unit :=
  (apiStep .checkRouterUp o.isUpRouter).bind fun routerUp =>
  if routerUp then apiStep .waitAvailableRouter o.waitAvailRouterUp
  else
    (apiStep .powerOnRouter o.upRouter).bind fun _ =>
    (apiStep .waitRouterUp o.waitUpRouter).bind fun _ =>
    apiStep .waitAvailableRouter o.waitAvailRouterBooted

/-- Everything before the firewall guard is armed (cmd.rs lines
193-258): key file read, router and switch resolution, router power,
then the firewall-off config update and apply.  Returns the public-key
file content. -/
def updateFirstHalf (o : UOracle) : Run UEvent CmdError String :=
  (readKeyStep o.readPubkey).bind fun suppliedKey =>
  (routerResolveStep o).bind fun _ =>
  (switchResolveStep o).bind fun _ =>
  (routerPowerStep o).bind fun _ =>
  (envStep (.updateRouterConfig false) o.updateConfigOff).bind fun _ =>
  (apiStep .applyRouterConfig o.applyConfigOff).bind fun _ =>
  pureRun suppliedKey

/-- One call inside the guard's `Drop`: failure means `expect` aborts
the process. -/
def expectStep (e : UEvent) (r : StepRes Unit) : Run UEvent CmdError Unit :=
  ⟨[e], match r with
    | .ok _ => .ok ()
    | .err => .panicked
    | .panic => .panicked⟩

/-- The `FirewallGuard` drop body (cmd.rs lines 261-279): re-enable the
firewall config, apply it, wait for availability. -/
def firewallGuardRun (o : UOracle) : Run UEvent CmdError Unit :=
  (expectStep (.updateRouterConfig true) o.guardUpdateConfigOn).bind fun _ =>
  (expectStep .applyRouterConfig o.guardApplyConfigOn).bind fun _ =>
  expectStep .waitAvailableRouter o.guardWaitAvail

/-- Rust `Drop` semantics for the armed guard: the drop body runs after
the guarded scope on every exit — success, `?` error return, or panic
unwinding — and a failing drop body aborts the process. -/
def withFirewallGuard {α : Type} (o : UOracle) (body : Run UEvent CmdError α) :
    Run UEvent CmdError α :=
  ⟨body.trace ++ (firewallGuardRun o).trace,
    match body.out, (firewallGuardRun o).out with
    | out, .ok _ => out
    | _, _ => .panicked⟩

/-- Server resolution (cmd.rs lines 285-299). -/
def serverResolveStep (o : UOracle) : Run UEvent CmdError Unit :=
  (envStep .tryGetServer o.tryGetServer).bind fun existing =>
  match existing with
  | some _ =>
    (apiStep .checkServerConnected o.isConnectedServer).bind fun c =>
    if c then pureRun () else failRun .primaryServerNotConnectedToSwitch
  | none =>
    (envStep .createServer o.createServer).bind fun _ => pureRun ()

/-- Bootstrap note resolution (cmd.rs lines 307-321). -/
def noteResolveStep (o : UOracle) : Run UEvent CmdError Unit :=
  (envStep .tryGetNote o.tryGetNote).bind fun existing =>
  match existing with
  | some _ =>
    (envStep .updateNoteContent o.updateNoteContent).bind fun _ =>
    apiStep .waitAvailableNote o.waitAvailNoteExisting
  | none =>
    (envStep .createNote o.createNote).bind fun _ =>
    apiStep .waitAvailableNote o.waitAvailNoteCreated

/-- SSH key resolution (cmd.rs lines 323-347): an existing key whose
stored public key differs from the supplied one is a hard error; a
missing key without supplied material is a hard error. -/
def sshKeyResolveStep (o : UOracle) (suppliedKey : Option String) :
    Run UEvent CmdError Unit :=
  (envStep .tryGetSshKey o.tryGetSshKey).bind fun existing =>
  match existing with
  | some currentKey =>
    match suppliedKey with
    | some k =>
      if currentKey ≠ k then
        failRun (.primarySshPublicKeyAlreadyRegisteredButMismatch currentKey k)
      else pureRun ()
    | none => pureRun ()
  | none =>
    match suppliedKey with
    | some _ => (envStep .createSshKey o.createSshKey).bind fun _ => pureRun ()
    | none => failRun .primarySshPublicKeyNotGivenForNewServerDisk

/-- Disk resolution (cmd.rs lines 301-360): an existing disk only waits
for availability; a missing one resolves note, key and archive and
creates the disk. -/
def diskResolveStep (o : UOracle) (suppliedKey : Option String) :
    Run UEvent CmdError Unit :=
  (envStep .tryGetDisk o.tryGetDisk).bind fun existing =>
  match existing with
  | some _ => apiStep .waitAvailableDisk o.waitAvailDiskExisting
  | none =>
    (noteResolveStep o).bind fun _ =>
    (sshKeyResolveStep o suppliedKey).bind fun _ =>
    (apiStep .searchLatestArchive o.latestArchive).bind fun _ =>
    (envStep .createDisk o.createDisk).bind fun _ =>
    apiStep .waitAvailableDisk o.waitAvailDiskCreated

/-- The guarded remainder (cmd.rs lines 282-391): router availability
re-check, server and disk resolution, server power-on, re-fetch of the
router for its shared IP, script preparation, server restart, and the
remote wait-for-done. -/
def updateRemainder (o : UOracle) (suppliedKey : Option String) :
    Run UEvent CmdError Unit :=
  (apiStep .waitAvailableRouter o.waitAvailRouterGuarded).bind fun _ =>
  (serverResolveStep o).bind fun _ =>
  (diskResolveStep o suppliedKey).bind fun _ =>
  (apiStep .waitAvailableServer o.waitAvailServer).bind fun _ =>
  ((apiStep .checkServerUp o.isUpServer).bind fun up =>
    if up then pureRun ()
    else
      (apiStep .powerOnServer o.upServer).bind fun _ =>
      apiStep .waitServerUp o.waitUpServer).bind fun _ =>
  ((envStep .tryGetVpcRouter o.tryGetVpcRouter2).bind fun r2 =>
    match r2 with
    | some _ => pureRun ()
    | none => failRun .primaryVpcRouterNotExists).bind fun _ =>
  (publicIpStep o.publicSharedIp).bind fun _ =>
  (scriptStep .prepareSetupScript o.prepareScript).bind fun _ =>
  (apiStep .powerOffServer o.downServer).bind fun _ =>
  (apiStep .waitServerDown o.waitDownServer).bind fun _ =>
  (apiStep .powerOnServer o.upServer2).bind fun _ =>
  (apiStep .waitServerUp o.waitUpServer2).bind fun _ =>
  scriptStep .waitForSetupDone o.waitForDone

/-- `UpdateCmd::run`: the pre-guard half, then the guarded remainder
with the firewall guard's drop appended on every exit path. -/
def updateRun (o : UOracle) : Run UEvent CmdError Unit :=
  (updateFirstHalf o).bind fun suppliedKey =>
  withFirewallGuard o (updateRemainder o (some suppliedKey))

/-- The run disabled the firewall: the pre-guard half (which ends with
the firewall-off update and its apply) succeeded, which is exactly the
point where the source arms the guard. -/
def firewallDisabled (o : UOracle) : Bool :=
  match (updateFirstHalf o).out with
  | .ok _ => true
  | _ => false

lemma bind_ok_eq {ev ε α β : Type} (m : Run ev ε α) (f : α → Run ev ε β)
    {a : α} (h : m.out = .ok a) :
    m.bind f = ⟨m.trace ++ (f a).trace, (f a).out⟩ := by
  unfold Run.bind
  rw [h]

lemma bind_err_eq {ev ε α β : Type} (m : Run ev ε α) (f : α → Run ev ε β)
    {e : ε} (h : m.out = .err e) :
    m.bind f = ⟨m.trace, .err e⟩ := by
  unfold Run.bind
  rw [h]

lemma routerResolveStep_emits (o : UOracle) :
    EmitsOnly (routerResolveStep o) (fun e =>
      e ∈ ([.tryGetVpcRouter, .createVpcRouter, .waitAvailableRouter] :
        List UEvent)) := by
  unfold routerResolveStep
  refine emitsOnly_bind (emitsOnly_callStep (by simp)) (fun ex => ?_)
  rcases ex with _ | _
  · exact emitsOnly_bind (emitsOnly_callStep (by simp))
      (fun _ => emitsOnly_callStep (by simp))
  · exact emitsOnly_callStep (by simp)

lemma switchResolveStep_emits (o : UOracle) :
    EmitsOnly (switchResolveStep o) (fun e =>
      e ∈ ([.tryGetSwitch, .checkSwitchConnected, .createSwitch,
        .connectSwitchToRouter] : List UEvent)) := by
  unfold switchResolveStep
  refine emitsOnly_bind (emitsOnly_callStep (by simp)) (fun ex => ?_)
  rcases ex with _ | _
  · exact emitsOnly_bind (emitsOnly_callStep (by simp))
      (fun _ => emitsOnly_callStep (by simp))
  · refine emitsOnly_bind (emitsOnly_callStep (by simp)) (fun c => ?_)
    exact emitsOnly_ite emitsOnly_pureRun emitsOnly_failRun

lemma routerPowerStep_emits (o : UOracle) :
    EmitsOnly (routerPowerStep o) (fun e =>
      e ∈ ([.checkRouterUp, .waitAvailableRouter, .powerOnRouter,
        .waitRouterUp] : List UEvent)) := by
  unfold routerPowerStep
  refine emitsOnly_bind (emitsOnly_callStep (by simp)) (fun up => ?_)
  refine emitsOnly_ite (emitsOnly_callStep (by simp)) ?_
  exact emitsOnly_bind (emitsOnly_callStep (by simp)) (fun _ =>
    emitsOnly_bind (emitsOnly_callStep (by simp))
      (fun _ => emitsOnly_callStep (by simp)))

lemma updateFirstHalf_emits (o : UOracle) :
    EmitsOnly (updateFirstHalf o) (fun e =>
      e ∈ ([.readPubkeyFile, .tryGetVpcRouter, .createVpcRouter,
        .waitAvailableRouter, .tryGetSwitch, .checkSwitchConnected,
        .createSwitch, .connectSwitchToRouter, .checkRouterUp,
        .powerOnRouter, .waitRouterUp, .updateRouterConfig false,
        .applyRouterConfig] : List UEvent)) := by
  unfold updateFirstHalf
  refine emitsOnly_bind ?_ (fun k => ?_)
  · intro e he
    simp only [readKeyStep] at he
    simp only [List.mem_singleton] at he
    simp [he]
  refine emitsOnly_bind (emitsOnly_mono (routerResolveStep_emits o) ?_)
    (fun _ => ?_)
  · intro e he
    simp only [List.mem_cons, List.not_mem_nil, or_false] at he
    rcases he with rfl | rfl | rfl <;> simp
  refine emitsOnly_bind (emitsOnly_mono (switchResolveStep_emits o) ?_)
    (fun _ => ?_)
  · intro e he
    simp only [List.mem_cons, List.not_mem_nil, or_false] at he
    rcases he with rfl | rfl | rfl | rfl <;> simp
  refine emitsOnly_bind (emitsOnly_mono (routerPowerStep_emits o) ?_)
    (fun _ => ?_)
  · intro e he
    simp only [List.mem_cons, List.not_mem_nil, or_false] at he
    rcases he with rfl | rfl | rfl | rfl <;> simp
  refine emitsOnly_bind (emitsOnly_callStep (by simp)) (fun _ => ?_)
  refine emitsOnly_bind (emitsOnly_callStep (by simp)) (fun _ => ?_)
  exact emitsOnly_pureRun

lemma serverResolveStep_emits (o : UOracle) :
    EmitsOnly (serverResolveStep o) (fun e =>
      e ∈ ([.tryGetServer, .checkServerConnected, .createServer] :
        List UEvent)) := by
  unfold serverResolveStep
  refine emitsOnly_bind (emitsOnly_callStep (by simp)) (fun ex => ?_)
  rcases ex with _ | _
  · exact emitsOnly_bind (emitsOnly_callStep (by simp))
      (fun _ => emitsOnly_pureRun)
  · refine emitsOnly_bind (emitsOnly_callStep (by simp)) (fun c => ?_)
    exact emitsOnly_ite emitsOnly_pureRun emitsOnly_failRun

lemma noteResolveStep_emits (o : UOracle) :
    EmitsOnly (noteResolveStep o) (fun e =>
      e ∈ ([.tryGetNote, .updateNoteContent, .waitAvailableNote,
        .createNote] : List UEvent)) := by
  unfold noteResolveStep
  refine emitsOnly_bind (emitsOnly_callStep (by simp)) (fun ex => ?_)
  rcases ex with _ | _
  · exact emitsOnly_bind (emitsOnly_callStep (by simp))
      (fun _ => emitsOnly_callStep (by simp))
  · exact emitsOnly_bind (emitsOnly_callStep (by simp))
      (fun _ => emitsOnly_callStep (by simp))

lemma sshKeyResolveStep_emits (o : UOracle) (suppliedKey : Option String) :
    EmitsOnly (sshKeyResolveStep o suppliedKey) (fun e =>
      e ∈ ([.tryGetSshKey, .createSshKey] : List UEvent)) := by
  unfold sshKeyResolveStep
  refine emitsOnly_bind (emitsOnly_callStep (by simp)) (fun ex => ?_)
  rcases ex with _ | cur
  · rcases suppliedKey with _ | k
    · exact emitsOnly_failRun
    · exact emitsOnly_bind (emitsOnly_callStep (by simp))
        (fun _ => emitsOnly_pureRun)
  · rcases suppliedKey with _ | k
    · exact emitsOnly_pureRun
    · exact emitsOnly_ite emitsOnly_failRun emitsOnly_pureRun

lemma diskResolveStep_emits (o : UOracle) (suppliedKey : Option String) :
    EmitsOnly (diskResolveStep o suppliedKey) (fun e =>
      e ∈ ([.tryGetDisk, .waitAvailableDisk, .tryGetNote,
        .updateNoteContent, .waitAvailableNote, .createNote, .tryGetSshKey,
        .createSshKey, .searchLatestArchive, .createDisk] :
        List UEvent)) := by
  unfold diskResolveStep
  refine emitsOnly_bind (emitsOnly_callStep (by simp)) (fun ex => ?_)
  rcases ex with _ | _
  · refine emitsOnly_bind (emitsOnly_mono (noteResolveStep_emits o) ?_)
      (fun _ => ?_)
    · intro e he
      simp only [List.mem_cons, List.not_mem_nil, or_false] at he
      rcases he with rfl | rfl | rfl | rfl <;> simp
    refine emitsOnly_bind
      (emitsOnly_mono (sshKeyResolveStep_emits o suppliedKey) ?_)
      (fun _ => ?_)
    · intro e he
      simp only [List.mem_cons, List.not_mem_nil, or_false] at he
      rcases he with rfl | rfl <;> simp
    refine emitsOnly_bind (emitsOnly_callStep (by simp)) (fun _ => ?_)
    exact emitsOnly_bind (emitsOnly_callStep (by simp))
      (fun _ => emitsOnly_callStep (by simp))
  · exact emitsOnly_callStep (by simp)

lemma updateRemainder_emits (o : UOracle) (suppliedKey : Option String) :
    EmitsOnly (updateRemainder o suppliedKey) (fun e =>
      e ∈ ([.waitAvailableRouter, .tryGetServer, .checkServerConnected,
        .createServer, .tryGetDisk, .waitAvailableDisk, .tryGetNote,
        .updateNoteContent, .waitAvailableNote, .createNote, .tryGetSshKey,
        .createSshKey, .searchLatestArchive, .createDisk,
        .waitAvailableServer, .checkServerUp, .powerOnServer, .waitServerUp,
        .tryGetVpcRouter, .powerOffServer, .waitServerDown,
        .prepareSetupScript, .waitForSetupDone] : List UEvent)) := by
  unfold updateRemainder
  refine emitsOnly_bind (emitsOnly_callStep (by simp)) (fun _ => ?_)
  refine emitsOnly_bind (emitsOnly_mono (serverResolveStep_emits o) ?_)
    (fun _ => ?_)
  · intro e he
    simp only [List.mem_cons, List.not_mem_nil, or_false] at he
    rcases he with rfl | rfl | rfl <;> simp
  refine emitsOnly_bind
    (emitsOnly_mono (diskResolveStep_emits o suppliedKey) ?_) (fun _ => ?_)
  · intro e he
    simp only [List.mem_cons, List.not_mem_nil, or_false] at he
    rcases he with rfl | rfl | rfl | rfl | rfl | rfl | rfl | rfl | rfl |
      rfl <;> simp
  refine emitsOnly_bind (emitsOnly_callStep (by simp)) (fun _ => ?_)
  refine emitsOnly_bind ?_ (fun _ => ?_)
  · refine emitsOnly_bind (emitsOnly_callStep (by simp)) (fun up => ?_)
    refine emitsOnly_ite emitsOnly_pureRun ?_
    exact emitsOnly_bind (emitsOnly_callStep (by simp))
      (fun _ => emitsOnly_callStep (by simp))
  refine emitsOnly_bind ?_ (fun _ => ?_)
  · refine emitsOnly_bind (emitsOnly_callStep (by simp)) (fun r2 => ?_)
    rcases r2 with _ | _
    · exact emitsOnly_failRun
    · exact emitsOnly_pureRun
  refine emitsOnly_bind ?_ (fun _ => ?_)
  · intro e he
    simp [publicIpStep] at he
  refine emitsOnly_bind (emitsOnly_callStep (by simp)) (fun _ => ?_)
  refine emitsOnly_bind (emitsOnly_callStep (by simp)) (fun _ => ?_)
  refine emitsOnly_bind (emitsOnly_callStep (by simp)) (fun _ => ?_)
  refine emitsOnly_bind (emitsOnly_callStep (by simp)) (fun _ => ?_)
  refine emitsOnly_bind (emitsOnly_callStep (by simp)) (fun _ => ?_)
  exact emitsOnly_callStep (by simp)

lemma count_zero_of_emitsOnly {ev ε α : Type} [BEq ev] [LawfulBEq ev]
    {m : Run ev ε α} {l : List ev} {x : ev}
    (h : EmitsOnly m (fun e => e ∈ l)) (hx : x ∉ l) :
    m.trace.count x = 0 := by
  rw [List.count_eq_zero]
  intro hmem
  exact hx (h x hmem)

lemma firewallGuardRun_count_one (o : UOracle) :
    (firewallGuardRun o).trace.count (UEvent.updateRouterConfig true) = 1 := by
  unfold firewallGuardRun expectStep
  rcases o.guardUpdateConfigOn with u | _ | _ <;>
    rcases o.guardApplyConfigOn with u2 | _ | _ <;>
      rcases o.guardWaitAvail with u3 | _ | _ <;>
        simp [Run.bind, List.count_cons]

lemma firewallGuardRun_all_ok (o : UOracle)
    (h1 : o.guardUpdateConfigOn = .ok ()) (h2 : o.guardApplyConfigOn = .ok ())
    (h3 : o.guardWaitAvail = .ok ()) :
    firewallGuardRun o = ⟨[.updateRouterConfig true, .applyRouterConfig,
      .waitAvailableRouter], .ok ()⟩ := by
  unfold firewallGuardRun expectStep
  rw [h1, h2, h3]
  rfl

lemma updateRun_armed (o : UOracle) {k : String}
    (h : (updateFirstHalf o).out = .ok k) :
    (updateRun o).trace = (updateFirstHalf o).trace ++
      ((updateRemainder o (some k)).trace ++ (firewallGuardRun o).trace) ∧
    (updateRun o).out =
      (withFirewallGuard o (updateRemainder o (some k))).out := by
  unfold updateRun
  rw [bind_ok_eq (updateFirstHalf o) _ h]
  exact ⟨rfl, rfl⟩

lemma updateRun_not_armed (o : UOracle)
    (h : ∀ k, (updateFirstHalf o).out ≠ .ok k) :
    (updateRun o).trace = (updateFirstHalf o).trace := by
  unfold updateRun Run.bind
  rcases ho : (updateFirstHalf o).out with k | e | _ | _
  · exact absurd ho (h k)
  · rfl
  · rfl
  · rfl

lemma emitsOnly_expectStep {e0 : UEvent} {r : StepRes Unit}
    {P : UEvent → Prop} (h : P e0) : EmitsOnly (expectStep e0 r) P := by
  intro e he
  simp only [expectStep] at he
  simp only [List.mem_singleton] at he
  exact he ▸ h

lemma firewallGuardRun_emits (o : UOracle) :
    EmitsOnly (firewallGuardRun o) (fun e =>
      e ∈ ([.updateRouterConfig true, .applyRouterConfig,
        .waitAvailableRouter] : List UEvent)) := by
  unfold firewallGuardRun
  exact emitsOnly_bind (emitsOnly_expectStep (by simp)) (fun _ =>
    emitsOnly_bind (emitsOnly_expectStep (by simp))
      (fun _ => emitsOnly_expectStep (by simp)))

/-- C1: once the pre-guard half has disabled the firewall (the
firewall-off config update and apply succeeded, which is exactly where
the source arms the `FirewallGuard`), every execution of the guarded
remainder — ending in success, in an error return, or in panic
unwinding, under any oracle — carries exactly one invocation of the
firewall re-enable config update; when the guard's three calls succeed
the trace ends with the full re-enable step (config update with
firewall enabled, apply, wait for availability).  A run that never
disabled the firewall performs no re-enable. -/
theorem firewall_guard_runs_exactly_once (o : UOracle) :
    (firewallDisabled o = true →
      (updateRun o).trace.count (UEvent.updateRouterConfig true) = 1 ∧
      (o.guardUpdateConfigOn = .ok () → o.guardApplyConfigOn = .ok () →
       o.guardWaitAvail = .ok () →
       ∃ t, (updateRun o).trace = t ++ [.updateRouterConfig true,
         .applyRouterConfig, .waitAvailableRouter])) ∧
    (firewallDisabled o = false →
      (updateRun o).trace.count (UEvent.updateRouterConfig true) = 0) := by
  constructor
  · intro hdis
    obtain ⟨k, hk⟩ : ∃ k, (updateFirstHalf o).out = .ok k := by
      unfold firewallDisabled at hdis
      rcases ho : (updateFirstHalf o).out with k | _ | _ | _
      · exact ⟨k, rfl⟩
      all_goals (rw [ho] at hdis; simp at hdis)
    have cfh : (updateFirstHalf o).trace.count
        (UEvent.updateRouterConfig true) = 0 :=
      count_zero_of_emitsOnly (updateFirstHalf_emits o) (by decide)
    have crem : (updateRemainder o (some k)).trace.count
        (UEvent.updateRouterConfig true) = 0 :=
      count_zero_of_emitsOnly (updateRemainder_emits o (some k)) (by decide)
    obtain ⟨htr, hout⟩ := updateRun_armed o hk
    constructor
    · rw [htr, List.count_append, List.count_append, cfh, crem,
        firewallGuardRun_count_one]
    · intro g1 g2 g3
      refine ⟨(updateFirstHalf o).trace ++
        (updateRemainder o (some k)).trace, ?_⟩
      rw [htr, firewallGuardRun_all_ok o g1 g2 g3]
      simp
  · intro hdis
    have hnk : ∀ k, (updateFirstHalf o).out ≠ .ok k := by
      intro k hk2
      unfold firewallDisabled at hdis
      rw [hk2] at hdis
      simp at hdis
    rw [updateRun_not_armed o hnk]
    exact count_zero_of_emitsOnly (updateFirstHalf_emits o) (by decide)

/-- All-success oracle (everything already exists, every call succeeds;
the registered key text equals the supplied one). -/
def updateOracleAllOk : UOracle where
  readPubkey := .ok "KEY"
  tryGetVpcRouter := .ok (some ())
  createVpcRouter := .ok ()
  waitAvailRouterExisting := .ok ()
  waitAvailRouterCreated := .ok ()
  tryGetSwitch := .ok (some ())
  isConnectedSwitch := .ok true
  createSwitch := .ok ()
  connectSwitch := .ok ()
  isUpRouter := .ok true
  waitAvailRouterUp := .ok ()
  upRouter := .ok ()
  waitUpRouter := .ok ()
  waitAvailRouterBooted := .ok ()
  updateConfigOff := .ok ()
  applyConfigOff := .ok ()
  waitAvailRouterGuarded := .ok ()
  tryGetServer := .ok (some ())
  isConnectedServer := .ok true
  createServer := .ok ()
  tryGetDisk := .ok (some ())
  waitAvailDiskExisting := .ok ()
  tryGetNote := .ok (some ())
  updateNoteContent := .ok ()
  waitAvailNoteExisting := .ok ()
  createNote := .ok ()
  waitAvailNoteCreated := .ok ()
  tryGetSshKey := .ok (some "KEY")
  createSshKey := .ok ()
  latestArchive := .ok ()
  createDisk := .ok ()
  waitAvailDiskCreated := .ok ()
  waitAvailServer := .ok ()
  isUpServer := .ok true
  upServer := .ok ()
  waitUpServer := .ok ()
  tryGetVpcRouter2 := .ok (some ())
  publicSharedIp := .ok ()
  prepareScript := .ok ()
  downServer := .ok ()
  waitDownServer := .ok ()
  upServer2 := .ok ()
  waitUpServer2 := .ok ()
  waitForDone := .ok ()
  guardUpdateConfigOn := .ok ()
  guardApplyConfigOn := .ok ()
  guardWaitAvail := .ok ()

/-- Witness for C1: the all-success run disables the firewall and its
trace carries exactly one re-enable invocation. -/
theorem firewall_guard_runs_exactly_once_witness :
    firewallDisabled updateOracleAllOk = true ∧
    (updateRun updateOracleAllOk).trace.count
      (UEvent.updateRouterConfig true) = 1 :=
  ⟨by decide,
    ((firewall_guard_runs_exactly_once updateOracleAllOk).1 (by decide)).1⟩

/-- C9: the Update run reads the SSH public-key file before any
provider contact; an unreadable file fails the run with
`PrimarySshPublicKeyGivenButCouldntRead` after the read alone — no
provider call appears in the trace, whatever the rest of the oracle
says (even with every piece of equipment in place). -/
theorem update_pubkey_read_first (o : UOracle) (msg : String)
    (h : o.readPubkey = .error msg) :
    updateRun o = ⟨[UEvent.readPubkeyFile],
      .err (.primarySshPublicKeyGivenButCouldntRead msg)⟩ := by
  have h1 : updateFirstHalf o = ⟨[UEvent.readPubkeyFile],
      .err (.primarySshPublicKeyGivenButCouldntRead msg)⟩ := by
    unfold updateFirstHalf readKeyStep
    rw [h]
    rfl
  unfold updateRun
  rw [h1]
  rfl

/-- Oracle where every piece of equipment exists but the key file read
fails. -/
def updateOracleBadRead : UOracle :=
  { updateOracleAllOk with readPubkey := .error "permission denied" }

/-- Witness for C9: the failed read aborts the run with an empty
provider trace. -/
theorem update_pubkey_read_first_witness :
    updateOracleBadRead.readPubkey = .error "permission denied" ∧
    updateRun updateOracleBadRead = ⟨[UEvent.readPubkeyFile],
      .err (.primarySshPublicKeyGivenButCouldntRead "permission denied")⟩ :=
  ⟨rfl, update_pubkey_read_first updateOracleBadRead "permission denied" rfl⟩

/-- C7: (a) when the named switch already exists but the connectivity
check against the resolved VPC router answers false, the Update run
fails with `PrimarySwitchNotConnectedToVpcRouter` and its trace ends at
that check — no further call of any kind (the firewall guard is not yet
armed at that point).  (b) When the disk is missing and an SSH key of
the expected name exists whose stored public key differs from the
supplied one, the guarded remainder fails with
`PrimarySshPublicKeyAlreadyRegisteredButMismatch` carrying both key
texts, no run ever emits a key creation (and the embedding has no key
update or delete call at all), and — the guard's own calls succeeding —
the whole run reports that mismatch error. -/
theorem update_mismatch_detection :
    (∀ (o : UOracle) (key : String),
      o.readPubkey = .ok key →
      (routerResolveStep o).out = .ok () →
      o.tryGetSwitch = .ok (some ()) →
      o.isConnectedSwitch = .ok false →
      updateRun o = ⟨UEvent.readPubkeyFile ::
        ((routerResolveStep o).trace ++
          [UEvent.tryGetSwitch, UEvent.checkSwitchConnected]),
        .err .primarySwitchNotConnectedToVpcRouter⟩) ∧
    (∀ (o : UOracle) (k cur : String),
      (updateFirstHalf o).out = .ok k →
      o.waitAvailRouterGuarded = .ok () →
      (serverResolveStep o).out = .ok () →
      o.tryGetDisk = .ok none →
      (noteResolveStep o).out = .ok () →
      o.tryGetSshKey = .ok (some cur) →
      cur ≠ k →
      (updateRemainder o (some k)).out =
        .err (.primarySshPublicKeyAlreadyRegisteredButMismatch cur k) ∧
      UEvent.createSshKey ∉ (updateRun o).trace ∧
      (o.guardUpdateConfigOn = .ok () → o.guardApplyConfigOn = .ok () →
       o.guardWaitAvail = .ok () →
       (updateRun o).out =
         .err (.primarySshPublicKeyAlreadyRegisteredButMismatch cur k))) := by
  constructor
  · intro o key hread hrr hsw1 hsw2
    have h0 : readKeyStep o.readPubkey =
        ⟨[UEvent.readPubkeyFile], .ok key⟩ := by
      unfold readKeyStep
      rw [hread]
    have hsw : switchResolveStep o = ⟨[UEvent.tryGetSwitch,
        UEvent.checkSwitchConnected],
        .err .primarySwitchNotConnectedToVpcRouter⟩ := by
      unfold switchResolveStep envStep apiStep callStep
      rw [hsw1, hsw2]
      rfl
    have hfh : updateFirstHalf o = ⟨UEvent.readPubkeyFile ::
        ((routerResolveStep o).trace ++ [UEvent.tryGetSwitch,
          UEvent.checkSwitchConnected]),
        .err .primarySwitchNotConnectedToVpcRouter⟩ := by
      unfold updateFirstHalf
      rw [h0]
      rw [bind_ok_eq (⟨[UEvent.readPubkeyFile], Outcome.ok key⟩ :
        Run UEvent CmdError String) _ rfl]
      rw [bind_ok_eq (routerResolveStep o) _ hrr]
      rw [hsw]
      rw [bind_err_eq (⟨[UEvent.tryGetSwitch, UEvent.checkSwitchConnected],
        Outcome.err CmdError.primarySwitchNotConnectedToVpcRouter⟩ :
        Run UEvent CmdError Unit) _ rfl]
      rfl
    unfold updateRun
    rw [hfh]
    rfl
  · intro o k cur hfh hwg hsrv hdisk hnote hkey hne
    have hkeyStep : sshKeyResolveStep o (some k) = ⟨[UEvent.tryGetSshKey],
        .err (.primarySshPublicKeyAlreadyRegisteredButMismatch cur k)⟩ := by
      unfold sshKeyResolveStep envStep callStep
      rw [hkey]
      rw [bind_ok_eq (⟨[UEvent.tryGetSshKey], Outcome.ok (some cur)⟩ :
        Run UEvent CmdError (Option String)) _ rfl]
      simp [hne, failRun]
    have hdiskStep : diskResolveStep o (some k) = ⟨UEvent.tryGetDisk ::
        ((noteResolveStep o).trace ++ [UEvent.tryGetSshKey]),
        .err (.primarySshPublicKeyAlreadyRegisteredButMismatch cur k)⟩ := by
      unfold diskResolveStep envStep callStep
      rw [hdisk]
      rw [bind_ok_eq (⟨[UEvent.tryGetDisk], Outcome.ok none⟩ :
        Run UEvent CmdError (Option Unit)) _ rfl]
      rw [bind_ok_eq (noteResolveStep o) _ hnote]
      rw [hkeyStep]
      rw [bind_err_eq (⟨[UEvent.tryGetSshKey], Outcome.err
        (CmdError.primarySshPublicKeyAlreadyRegisteredButMismatch cur k)⟩ :
        Run UEvent CmdError Unit) _ rfl]
      rfl
    have hrem : updateRemainder o (some k) = ⟨UEvent.waitAvailableRouter ::
        ((serverResolveStep o).trace ++ (UEvent.tryGetDisk ::
          ((noteResolveStep o).trace ++ [UEvent.tryGetSshKey]))),
        .err (.primarySshPublicKeyAlreadyRegisteredButMismatch cur k)⟩ := by
      unfold updateRemainder apiStep callStep
      rw [hwg]
      rw [bind_ok_eq (⟨[UEvent.waitAvailableRouter], Outcome.ok ()⟩ :
        Run UEvent CmdError Unit) _ rfl]
      rw [bind_ok_eq (serverResolveStep o) _ hsrv]
      rw [hdiskStep]
      rw [bind_err_eq (⟨UEvent.tryGetDisk ::
        ((noteResolveStep o).trace ++ [UEvent.tryGetSshKey]), Outcome.err
        (CmdError.primarySshPublicKeyAlreadyRegisteredButMismatch cur k)⟩ :
        Run UEvent CmdError Unit) _ rfl]
      rfl
    obtain ⟨htr, hout⟩ := updateRun_armed o hfh
    refine ⟨by rw [hrem], ?_, ?_⟩
    · rw [htr]
      intro hmem
      rcases List.mem_append.mp hmem with h | h
      · exact absurd (updateFirstHalf_emits o _ h) (by decide)
      rcases List.mem_append.mp h with h2 | h2
      · rw [hrem] at h2
        simp only [List.mem_cons, List.mem_append] at h2
        rcases h2 with h3 | h3
        · exact absurd h3 (by decide)
        rcases h3 with h3 | h3
        · exact absurd (serverResolveStep_emits o _ h3) (by decide)
        rcases h3 with h3 | h3
        · exact absurd h3 (by decide)
        rcases h3 with h3 | h3
        · exact absurd (noteResolveStep_emits o _ h3) (by decide)
        · exact absurd h3 (by decide)
      · exact absurd (firewallGuardRun_emits o _ h2) (by decide)
    · intro g1 g2 g3
      rw [hout]
      unfold withFirewallGuard
      rw [hrem, firewallGuardRun_all_ok o g1 g2 g3]

/-- Oracle where the switch exists but is not connected to the vpc
router. -/
def updateOracleSwitchMismatch : UOracle :=
  { updateOracleAllOk with isConnectedSwitch := .ok false }

/-- Witness for C7 at the disconnected-switch oracle: the run stops at
the connectivity check with the specific error. -/
theorem update_mismatch_detection_witness :
    updateOracleSwitchMismatch.isConnectedSwitch = .ok false ∧
    updateRun updateOracleSwitchMismatch = ⟨UEvent.readPubkeyFile ::
      ((routerResolveStep updateOracleSwitchMismatch).trace ++
        [UEvent.tryGetSwitch, UEvent.checkSwitchConnected]),
      .err .primarySwitchNotConnectedToVpcRouter⟩ :=
  ⟨rfl, update_mismatch_detection.1 updateOracleSwitchMismatch "KEY"
    rfl rfl rfl rfl⟩
